import Mathlib

/-!
# rest-api-deploy: a movie REST service over an in-memory array

A shallow embedding of `src/app.js` (the Express handlers over the `movies`
array) and `src/schemas/movies.js` (the zod schema `movieSchema` with
`validateMovie` and `validatePartialMovie`).

Conventions of the embedding

* A JavaScript value that can come out of `JSON.parse` is a `Json`.  An object is
  an association list read with `List.lookup` (the first entry of a key is the
  property; a missing key is `undefined`).
* A JavaScript number is a `JsNumber`: an exact finite value or an infinity
  (`JSON.parse("1e999")` is `Infinity`); `NaN` cannot come out of `JSON.parse`.
* The `movies` array is passed in and out of the mutating handlers explicitly.
* `crypto.randomUUID()` is an argument of the POST handler.
* Built-ins whose definition is outside the repository (`String.prototype.toLowerCase`,
  the `URL` parser behind zod's `.url()`) are fields of `Builtins`, and every
  theorem holds for all of them.
* The zod library (version 3) is modelled by the combinators `zString`, `zNumber`,
  `zDefault`, `zOptional`, `zEnum`, `zArray`, `partialShape` and `safeParse`; an issue
  keeps its `code`, `path` and `message`.
* A handler whose JavaScript can throw a `TypeError` returns `Except String Response`.
* `fieldRule` spells out the rule of each schema field; `fieldRule_iff` shows that the
  parser of the field reports no issue exactly under that rule.
-/

namespace RestApiDeploy

/-! ## Values -/

/-- A JavaScript number produced by `JSON.parse`: finite (exact) or infinite. -/
inductive JsNumber where
  | fin (q : Rat)
  | posInf
  | negInf
deriving DecidableEq

/-- A value produced by `JSON.parse`. -/
inductive Json where
  | null
  | bool (b : Bool)
  | num (n : JsNumber)
  | str (s : String)
  | arr (xs : List Json)
  | obj (kvs : List (String × Json))

/-- A JavaScript object: its properties in insertion order. -/
abbrev Obj := List (String × Json)

/-- The built-ins of the JavaScript runtime that the program calls and whose
definition lies outside the repository. -/
structure Builtins where
  /-- The method `String.prototype.toLowerCase`. -/
  toLowerCase : String → String
  /-- Whether `new URL(s)` returns (rather than throws); zod's `.url()` check. -/
  isUrl : String → Bool

/-- The test `Number.isInteger(x)`. -/
def JsNumber.isInteger : JsNumber → Bool
  | .fin q => q.isInt
  | _ => false

/-- The comparison `x < c` for a finite constant `c`. -/
def JsNumber.ltConst : JsNumber → Rat → Bool
  | .fin q, c => decide (q < c)
  | .posInf, _ => false
  | .negInf, _ => true

/-- The comparison `x > c` for a finite constant `c`. -/
def JsNumber.gtConst : JsNumber → Rat → Bool
  | .fin q, c => decide (c < q)
  | .posInf, _ => true
  | .negInf, _ => false

/-- The comparison `x <= c` for a finite constant `c`. -/
def JsNumber.leConst (x : JsNumber) (c : Rat) : Bool := !x.gtConst c

/-- The comparison `x >= c` for a finite constant `c`. -/
def JsNumber.geConst (x : JsNumber) (c : Rat) : Bool := !x.ltConst c

/-- The number literal `n` of the source. -/
def JsNumber.ofInt (n : Int) : JsNumber := .fin n

/-- JavaScript truthiness of a JSON value. -/
def truthy : Json → Bool
  | .null => false
  | .bool b => b
  | .num (.fin q) => decide (q ≠ 0)
  | .num _ => true
  | .str s => decide (s ≠ "")
  | .arr _ => true
  | .obj _ => true

/-- The method `s.endsWith(suffix)`. -/
def endsWith (s suffix : String) : Bool := suffix.data.isSuffixOf s.data

/-- The assignment `o[k] = v` on an object: an existing property keeps its place. -/
def setProp : Obj → String → Json → Obj
  | [], k, v => [(k, v)]
  | (k', v') :: rest, k, v =>
    if k' == k then (k, v) :: rest else (k', v') :: setProp rest k v

/-- The object spread `{ ...target, ...source }`: the properties of `source` are
assigned onto a copy of `target` in order. -/
def spread (target source : Obj) : Obj :=
  source.foldl (fun acc kv => setProp acc kv.1 kv.2) target

/-! ## The zod combinators used by `movieSchema` -/

/-- One element of the path of a zod issue. -/
inductive PathSeg where
  | key (k : String)
  | index (i : Nat)
deriving DecidableEq

/-- A zod issue: its code, the path of the offending value and its message. -/
structure ZodIssue where
  code : String
  path : List PathSeg
  message : String
deriving DecidableEq

/-- What a zod parser hands back: the issues it reported and the parsed value
(`none` is `undefined`, also after an aborted parse). -/
structure ParseResult where
  issues : List ZodIssue
  value : Option Json

/-- A zod schema: a parser from the path and the input (`none` is `undefined`). -/
abbrev Schema := List PathSeg → Option Json → ParseResult

/-- The zod function `getParsedType`. -/
def parsedType : Option Json → String
  | none => "undefined"
  | some .null => "null"
  | some (.bool _) => "boolean"
  | some (.num _) => "number"
  | some (.str _) => "string"
  | some (.arr _) => "array"
  | some (.obj _) => "object"

/-- The `invalid_type` issue; `requiredError` and `invalidTypeError` are the
`required_error` and `invalid_type_error` given to the schema, if any. -/
def invalidType (requiredError invalidTypeError : Option String) (expected received : String)
    (path : List PathSeg) (input : Option Json) : ZodIssue :=
  { code := "invalid_type"
    path := path
    message :=
      match input with
      | none => requiredError.getD "Required"
      | some _ => invalidTypeError.getD ("Expected " ++ expected ++ ", received " ++ received) }

/-- A check of `z.string()`. -/
inductive StringCheck where
  | url (message : Option String)
  | endsWith (value : String)

/-- The issue of a failed string check, if it fails on `s`. -/
def StringCheck.run (B : Builtins) (path : List PathSeg) (s : String) : StringCheck → List ZodIssue
  | .url message =>
    if B.isUrl s then []
    else [{ code := "invalid_string", path := path, message := message.getD "Invalid url" }]
  | .endsWith value =>
    if RestApiDeploy.endsWith s value then []
    else [{ code := "invalid_string", path := path,
            message := "Invalid input: must end with \"" ++ value ++ "\"" }]

/-- The schema `z.string({ required_error, invalid_type_error })` followed by `checks`. -/
def zString (B : Builtins) (requiredError invalidTypeError : Option String)
    (checks : List StringCheck) : Schema := fun path input =>
  match input with
  | some (.str s) => ⟨checks.flatMap (StringCheck.run B path s), some (.str s)⟩
  | _ => ⟨[invalidType requiredError invalidTypeError "string" (parsedType input) path input], none⟩

/-- A check of `z.number()`. -/
inductive NumberCheck where
  | int
  | min (value : Int) (inclusive : Bool)
  | max (value : Int) (inclusive : Bool)

/-- The issue of a failed number check, if it fails on `x`. -/
def NumberCheck.run (requiredError invalidTypeError : Option String) (path : List PathSeg)
    (x : JsNumber) : NumberCheck → List ZodIssue
  | .int =>
    if x.isInteger then []
    else [invalidType requiredError invalidTypeError "integer" "float" path (some (.num x))]
  | .min value inclusive =>
    if (if inclusive then x.ltConst value else x.leConst value) then
      [{ code := "too_small", path := path,
         message := "Number must be greater than " ++
           (if inclusive then "or equal to " else "") ++ toString value }]
    else []
  | .max value inclusive =>
    if (if inclusive then x.gtConst value else x.geConst value) then
      [{ code := "too_big", path := path,
         message := "Number must be less than " ++
           (if inclusive then "or equal to " else "") ++ toString value }]
    else []

/-- The schema `z.number({ required_error, invalid_type_error })` followed by `checks`. -/
def zNumber (requiredError invalidTypeError : Option String)
    (checks : List NumberCheck) : Schema := fun path input =>
  match input with
  | some (.num x) =>
    ⟨checks.flatMap (NumberCheck.run requiredError invalidTypeError path x), some (.num x)⟩
  | _ => ⟨[invalidType requiredError invalidTypeError "number" (parsedType input) path input], none⟩

/-- The schema `inner.default(value)`. -/
def zDefault (value : Json) (inner : Schema) : Schema := fun path input =>
  match input with
  | none => inner path (some value)
  | some _ => inner path input

/-- The schema `inner.optional()`. -/
def zOptional (inner : Schema) : Schema := fun path input =>
  match input with
  | none => ⟨[], none⟩
  | some _ => inner path input

/-- The zod helper `util.joinValues`: the options quoted and joined by a bar. -/
def joinValues (options : List String) : String :=
  let quote := String.singleton (Char.ofNat 39)
  " | ".intercalate (options.map (fun o => quote ++ o ++ quote))

/-- The schema `z.enum(options)`. -/
def zEnum (options : List String) : Schema := fun path input =>
  match input with
  | some (.str s) =>
    if options.contains s then ⟨[], some (.str s)⟩
    else
      ⟨[{ code := "invalid_enum_value", path := path,
          message := "Invalid enum value. Expected " ++ joinValues options ++ ", received " ++
            String.singleton (Char.ofNat 39) ++ s ++ String.singleton (Char.ofNat 39) }], none⟩
  | _ => ⟨[invalidType none none (joinValues options) (parsedType input) path input], none⟩

/-- The elements of an array parsed one by one, each under its index. -/
def parseElements (element : Schema) (path : List PathSeg) : Nat → List Json → List ParseResult
  | _, [] => []
  | i, x :: xs => element (path ++ [.index i]) (some x) :: parseElements element path (i + 1) xs

/-- The values of successfully parsed elements. -/
def elementValues : List ParseResult → List Json
  | [] => []
  | r :: rs =>
    match r.value with
    | some v => v :: elementValues rs
    | none => elementValues rs

/-- The schema `z.array(element, { required_error, invalid_type_error })`. -/
def zArray (requiredError invalidTypeError : Option String) (element : Schema) : Schema :=
  fun path input =>
  match input with
  | some (.arr xs) =>
    let results := parseElements element path 0 xs
    let issues := results.flatMap (fun r => r.issues)
    ⟨issues, if issues.isEmpty then some (.arr (elementValues results)) else none⟩
  | _ => ⟨[invalidType requiredError invalidTypeError "array" (parsedType input) path input], none⟩

/-- The shape of a `z.object`: its keys, in order, each with its schema. -/
abbrev Shape := List (String × Schema)

/-- The parse of every key of the shape against the object `o`. -/
def parseFields (shape : Shape) (path : List PathSeg) (o : Obj) : List (String × ParseResult) :=
  shape.map (fun ks => (ks.1, ks.2 (path ++ [.key ks.1]) (o.lookup ks.1)))

/-- The object built from the parsed fields: a key whose value is `undefined` is
left out, unknown keys of the input never get in. -/
def finalObject : List (String × ParseResult) → Obj
  | [] => []
  | (k, r) :: rest =>
    match r.value with
    | some v => (k, v) :: finalObject rest
    | none => finalObject rest

/-- The call `z.object(shape).safeParse(input)`: the data when no issue was
reported, otherwise the issues in the order of the shape. -/
def safeParse (shape : Shape) (input : Json) : Except (List ZodIssue) Obj :=
  match input with
  | .obj o =>
    let fields := parseFields shape [] o
    let issues := fields.flatMap (fun kr => kr.2.issues)
    if issues.isEmpty then .ok (finalObject fields) else .error issues
  | _ => .error [invalidType none none "object" (parsedType (some input)) [] (some input)]

/-- The method `.partial()` of an object schema: every key becomes optional. -/
def partialShape (shape : Shape) : Shape :=
  shape.map (fun ks => (ks.1, zOptional ks.2))

/-! ## `src/schemas/movies.js` -/

/-- The options of the `z.enum` of the genre elements. -/
def genreOptions : List String :=
  ["Action", "Adventure", "Animation", "Biography", "Comedy", "Crime", "Drama", "Family",
   "Fantasy", "History", "Horror", "Musical", "Mystery", "Romance", "Sci-Fi", "Sport",
   "Thriller", "War", "Western"]

/-- The shape of `movieSchema`. -/
def movieSchema (B : Builtins) : Shape :=
  [ ("title", zString B (some "Movie title is required") (some "Movie title must be a string") []),
    ("year", zNumber (some "Movie year is required") (some "Movie year must be a number")
      [.int, .min 1900 true, .max 2024 true]),
    ("director", zString B none none []),
    ("duration", zNumber none none [.int, .min 0 false]),
    ("rate", zDefault (.num (JsNumber.ofInt 5)) (zNumber none none [.min 0 true, .max 10 true])),
    ("poster", zString B none none
      [.url (some "poster poster must be a valid url"), .endsWith ".jpg"]),
    ("genre", zArray (some "Movie genre is required") none (zEnum genreOptions)) ]

/-- The function `validateMovie`: `movieSchema.safeParse(input)`. -/
def validateMovie (B : Builtins) (input : Json) : Except (List ZodIssue) Obj :=
  safeParse (movieSchema B) input

/-- The function `validatePartialMovie`: `movieSchema.partial().safeParse(input)`. -/
def validatePartialMovie (B : Builtins) (input : Json) : Except (List ZodIssue) Obj :=
  safeParse (partialShape (movieSchema B)) input

/-! ## `src/app.js` -/

/-- The body handed to `res.json` or `res.send`. -/
inductive Body where
  /-- The call `res.json(value)`. -/
  | json (value : Json)
  /-- The call `res.json({ error: JSON.parse(result.error.message) })`: the issues. -/
  | error (issues : List ZodIssue)
  /-- The call `res.send()`. -/
  | empty

/-- What a handler answers: the status, the headers it set and the body. -/
structure Response where
  status : Nat
  headers : List (String × String)
  body : Body

/-- The constant `ACCEPTED_ORIGINS`. -/
def ACCEPTED_ORIGINS : List String :=
  ["http://localhost:8080", "http://localhost:1234", "https://movies.com/", "https://midu.dev"]

/-- The test `ACCEPTED_ORIGINS.includes(origin) || !origin`; `none` is a request
without an origin header. -/
def originAccepted : Option String → Bool
  | none => true
  | some o => ACCEPTED_ORIGINS.contains o || o == ""

/-- The headers after `res.header("Access-Control-Allow-Origin", origin)` under
the origin test; Express writes `String(origin)`. -/
def corsHeaders (origin : Option String) : List (String × String) :=
  if originAccepted origin then [("Access-Control-Allow-Origin", origin.getD "undefined")]
  else []

/-- The body `{ message: text }`. -/
def messageBody (text : String) : Body := .json (.obj [("message", .str text)])

/-- The list body `res.json(movies)`. -/
def moviesBody (movies : List Obj) : Body := .json (.arr (movies.map Json.obj))

/-- The test `movie.id === id` for the string `id` of the path. -/
def hasId (id : String) (movie : Obj) : Bool :=
  match movie.lookup "id" with
  | some (.str s) => s == id
  | _ => false

/-- The call `genres.some((g) => g.toLowerCase() === genre.toLowerCase())`; an
element that is not a string has no `toLowerCase` and throws. -/
def someGenre (B : Builtins) (genre : String) : List Json → Except String Bool
  | [] => .ok false
  | .str g :: rest =>
    if B.toLowerCase g == B.toLowerCase genre then .ok true else someGenre B genre rest
  | _ :: _ => .error "TypeError: g.toLowerCase is not a function"

/-- The callback of the genre filter: it evaluates `movie.genre.some(...)`, drops
the result and returns `movie`. -/
def genreCallback (B : Builtins) (genre : String) (movie : Obj) : Except String Json :=
  match movie.lookup "genre" with
  | some (.arr genres) =>
    match someGenre B genre genres with
    | .ok _ => .ok (.obj movie)
    | .error e => .error e
  | _ => .error "TypeError: movie.genre.some is not a function"

/-- The call `movies.filter(callback)`: an element stays when the callback
returns a truthy value; a throwing callback ends the call. -/
def filterMovies (callback : Obj → Except String Json) : List Obj → Except String (List Obj)
  | [] => .ok []
  | movie :: rest =>
    match callback movie with
    | .error e => .error e
    | .ok kept =>
      match filterMovies callback rest with
      | .error e => .error e
      | .ok others => .ok (if truthy kept then movie :: others else others)

/-- The branch `if (filtered) res.json(filtered) else res.status(404)...` of the
genre routes: an array is truthy. -/
def genreAnswer (headers : List (String × String)) (filtered : List Obj) : Response :=
  if truthy (.arr (filtered.map Json.obj)) then ⟨200, headers, moviesBody filtered⟩
  else ⟨404, headers, messageBody "Not movies with that genre"⟩

/-- The handler of `GET /movies`; `genre` is `req.query.genre` when the query gives a
string, `none` when the query has no `genre`. -/
def getMovies (B : Builtins) (movies : List Obj) (origin : Option String)
    (genre : Option String) : Except String Response :=
  match genre with
  | some g =>
    if truthy (.str g) then
      match filterMovies (genreCallback B g) movies with
      | .ok filtered => .ok (genreAnswer (corsHeaders origin) filtered)
      | .error e => .error e
    else .ok ⟨200, corsHeaders origin, moviesBody movies⟩
  | none => .ok ⟨200, corsHeaders origin, moviesBody movies⟩

/-- The handler of `GET /movies/:id`. -/
def getMovieById (movies : List Obj) (id : String) : Response :=
  match movies.find? (hasId id) with
  | some movie => ⟨200, [], .json (.obj movie)⟩
  | none => ⟨404, [], messageBody "Movie not found"⟩

/-- The handler of `GET /movies/genre/:genre`. -/
def getMoviesByGenre (B : Builtins) (movies : List Obj) (genre : String) : Except String Response :=
  match filterMovies (genreCallback B genre) movies with
  | .ok filtered => .ok (genreAnswer [] filtered)
  | .error e => .error e

/-- The handler of `POST /movies`; `uuid` is the result of `crypto.randomUUID()`.
It returns the answer and the `movies` array afterwards. -/
def postMovie (B : Builtins) (uuid : String) (movies : List Obj) (body : Json) :
    Response × List Obj :=
  match validateMovie B body with
  | .error issues => (⟨400, [], .error issues⟩, movies)
  | .ok data =>
    let newMovie := spread [("id", .str uuid)] data
    (⟨201, [], .json (.obj newMovie)⟩, movies ++ [newMovie])

/-- The call `movies.findIndex(callback)`; `none` is `-1`. -/
def findIndex (callback : Obj → Bool) : List Obj → Option Nat
  | [] => none
  | movie :: rest =>
    if callback movie then some 0 else (findIndex callback rest).map (· + 1)

/-- The handler of `DELETE /movies/:id`. -/
def deleteMovie (movies : List Obj) (origin : Option String) (id : String) :
    Response × List Obj :=
  match findIndex (hasId id) movies with
  | none => (⟨404, corsHeaders origin, messageBody "Movie not found"⟩, movies)
  | some movieIndex =>
    (⟨204, corsHeaders origin, .json (.obj [("meesage", .str "Movie deleted")])⟩,
      movies.eraseIdx movieIndex)

/-- The handler of `PATCH /movies/:id`. -/
def patchMovie (B : Builtins) (movies : List Obj) (id : String) (body : Json) :
    Response × List Obj :=
  match validatePartialMovie B body with
  | .error issues => (⟨400, [], .error issues⟩, movies)
  | .ok data =>
    match findIndex (hasId id) movies with
    | none => (⟨404, [], messageBody "Movie not found"⟩, movies)
    | some movieIndex =>
      let updateMovie := spread ((movies[movieIndex]?).getD []) data
      (⟨200, [], .json (.obj updateMovie)⟩, movies.set movieIndex updateMovie)

/-- The handler registered for `OPTIONS /movies/:id`.  The `cors` middleware registered
before the routes answers every `OPTIONS` request itself, so no request reaches this
handler. -/
def optionsMovie (origin : Option String) : Response :=
  if originAccepted origin then
    ⟨200, [("Access-Control-Allow-Origin", origin.getD "undefined"),
           ("Access-Control-Allow-Methods", "GET, POST, PUT, PATCH, DELETE, OPTIONS")], .empty⟩
  else ⟨200, [], .empty⟩

/-- The method `s.includes(sub)`: `sub` starts at some position of `s`. -/
def includes (s sub : String) : Bool :=
  s.data.tails.any (fun rest => sub.data.isPrefixOf rest)

/-- The callback of the director filter,
`movie.director.toLowerCase().includes(director.toLowerCase())`; a `director`
property that is not a string has no `toLowerCase` and throws. -/
def directorCallback (B : Builtins) (director : String) (movie : Obj) : Except String Json :=
  match movie.lookup "director" with
  | some (.str d) => .ok (.bool (includes (B.toLowerCase d) (B.toLowerCase director)))
  | _ => .error "TypeError: movie.director.toLowerCase is not a function"

/-- The handler of `GET /movies/director/:director`. -/
def getMoviesByDirector (B : Builtins) (movies : List Obj) (director : String) :
    Except String Response :=
  match filterMovies (directorCallback B director) movies with
  | .ok moviesJson =>
    if truthy (.arr (moviesJson.map Json.obj)) then .ok ⟨200, [], moviesBody moviesJson⟩
    else .ok ⟨404, [], messageBody "Movie not found"⟩
  | .error e => .error e

/-- The keys of `movieSchema`, in the order of the source. -/
def schemaKeys : List String :=
  ["title", "year", "director", "duration", "rate", "poster", "genre"]

/-- The string id of a record, if its `id` property is a string. -/
def movieId (movie : Obj) : Option String :=
  match movie.lookup "id" with
  | some (.str s) => some s
  | _ => none

/-- No two records of the array carry the same string id. -/
def UniqueIds (movies : List Obj) : Prop := (movies.filterMap movieId).Nodup

instance decidableUniqueIds (movies : List Obj) : Decidable (UniqueIds movies) :=
  inferInstanceAs (Decidable (movies.filterMap movieId).Nodup)

/-- The rule that `movieSchema` puts on the value `v` of the field `k`, spelled out:
`z.string()` for title and director, an integer in `[1900, 2024]` for year, a positive
integer for duration, a number in `[0, 10]` for rate, a URL ending in `.jpg` for poster,
an array of enumerated names for genre.  Other keys carry no rule. -/
def fieldRule (B : Builtins) (k : String) (v : Json) : Prop :=
  if k = "title" then ∃ s, v = .str s
  else if k = "year" then ∃ year : Int, v = .num (.fin year) ∧ 1900 ≤ year ∧ year ≤ 2024
  else if k = "director" then ∃ s, v = .str s
  else if k = "duration" then ∃ duration : Int, v = .num (.fin duration) ∧ 0 < duration
  else if k = "rate" then ∃ rate : Rat, v = .num (.fin rate) ∧ 0 ≤ rate ∧ rate ≤ 10
  else if k = "poster" then ∃ s, v = .str s ∧ B.isUrl s = true ∧ endsWith s ".jpg" = true
  else if k = "genre" then
    ∃ genres : List String, v = .arr (genres.map Json.str) ∧ ∀ g ∈ genres, g ∈ genreOptions
  else True

/-! ## A concrete runtime for evaluating examples -/

/-- A runtime for examples: ASCII lower-casing, and a URL test that accepts what
starts with `http://` or `https://`. -/
def asciiRuntime : Builtins where
  toLowerCase := fun s => String.mk (s.data.map Char.toLower)
  isUrl := fun s => "http://".data.isPrefixOf s.data || "https://".data.isPrefixOf s.data

/-- The body of the first scenario of the specification. -/
def scenarioBody : Json :=
  .obj [("title", .str "X"), ("year", .num (.fin 2020)), ("director", .str "D"),
        ("duration", .num (.fin 90)), ("poster", .str "http://a.com/p.jpg"),
        ("genre", .arr [.str "Action"])]

/-- The data that `validateMovie` returns for `scenarioBody`. -/
def scenarioData : Obj :=
  [("title", .str "X"), ("year", .num (.fin 2020)), ("director", .str "D"),
   ("duration", .num (.fin 90)), ("rate", .num (.fin 5)), ("poster", .str "http://a.com/p.jpg"),
   ("genre", .arr [.str "Action"])]

/-- The fields of the first scenario with the empty string as title. -/
def emptyTitleFields : Obj :=
  [("title", .str ""), ("year", .num (.fin 2020)), ("director", .str "D"),
   ("duration", .num (.fin 90)), ("poster", .str "http://a.com/p.jpg"),
   ("genre", .arr [.str "Action"])]

/-- The body of the first scenario with the empty string as title. -/
def emptyTitleBody : Json := .obj emptyTitleFields

/-- The data that `validateMovie` returns for `emptyTitleBody`. -/
def emptyTitleData : Obj :=
  [("title", .str ""), ("year", .num (.fin 2020)), ("director", .str "D"),
   ("duration", .num (.fin 90)), ("rate", .num (.fin 5)), ("poster", .str "http://a.com/p.jpg"),
   ("genre", .arr [.str "Action"])]

/-- The fields of the first scenario with the empty list as genre. -/
def emptyGenreFields : Obj :=
  [("title", .str "X"), ("year", .num (.fin 2020)), ("director", .str "D"),
   ("duration", .num (.fin 90)), ("poster", .str "http://a.com/p.jpg"),
   ("genre", .arr [])]

/-- The body of the first scenario with the empty list as genre. -/
def emptyGenreBody : Json := .obj emptyGenreFields

/-- The data that `validateMovie` returns for `emptyGenreBody`. -/
def emptyGenreData : Obj :=
  [("title", .str "X"), ("year", .num (.fin 2020)), ("director", .str "D"),
   ("duration", .num (.fin 90)), ("rate", .num (.fin 5)), ("poster", .str "http://a.com/p.jpg"),
   ("genre", .arr [])]

/-- A stored record with id `a1`. -/
def sampleMovie : Obj := ("id", .str "a1") :: scenarioData

/-- A second stored record, with id `b2`. -/
def otherMovie : Obj :=
  [("id", .str "b2"), ("title", .str "Y"), ("year", .num (.fin 1999)), ("director", .str "E"),
   ("duration", .num (.fin 120)), ("rate", .num (.fin 7)), ("poster", .str "http://a.com/q.jpg"),
   ("genre", .arr [.str "Drama", .str "Crime"])]

/-! ## Objects: assignment, spread and lookup -/

theorem lookup_cons_ne (o : Obj) (a k : String) (b : Json) (h : k ≠ a) :
    List.lookup k ((a, b) :: o) = o.lookup k := by
  have hb : (k == a) = false := by simpa using h
  simp [List.lookup, hb]

theorem lookup_setProp (o : Obj) (k k' : String) (v : Json) :
    (setProp o k v).lookup k' = if k' = k then some v else o.lookup k' := by
  induction o with
  | nil =>
    by_cases h : k' = k
    · subst h; simp [setProp]
    · simp [setProp, lookup_cons_ne _ _ _ _ h, h]
  | cons p rest ih =>
    obtain ⟨a, b⟩ := p
    by_cases hak : a = k
    · subst hak
      by_cases h : k' = a
      · subst h; simp [setProp]
      · simp [setProp, lookup_cons_ne _ _ _ _ h, h]
    · by_cases h2 : k' = a
      · subst h2
        have h : k' ≠ k := hak
        simp [setProp, hak, h]
      · simp [setProp, hak, lookup_cons_ne _ _ _ _ h2, ih]

theorem setProp_of_not_mem (o : Obj) (k : String) (v : Json) (h : k ∉ o.map Prod.fst) :
    setProp o k v = o ++ [(k, v)] := by
  induction o with
  | nil => rfl
  | cons p rest ih =>
    obtain ⟨a, b⟩ := p
    simp only [List.map_cons, List.mem_cons, not_or] at h
    have hak : a ≠ k := fun e => h.1 e.symm
    simp [setProp, hak, ih h.2]

theorem spread_of_fresh (source target : Obj) (hnodup : (source.map Prod.fst).Nodup)
    (hfresh : ∀ k ∈ source.map Prod.fst, k ∉ target.map Prod.fst) :
    spread target source = target ++ source := by
  induction source generalizing target with
  | nil => simp [spread]
  | cons p rest ih =>
    obtain ⟨a, b⟩ := p
    simp only [List.map_cons, List.nodup_cons] at hnodup
    have h1 : a ∉ target.map Prod.fst := hfresh a (by simp)
    have step : spread target ((a, b) :: rest) = spread (setProp target a b) rest := rfl
    rw [step, setProp_of_not_mem _ _ _ h1, ih _ hnodup.2]
    · simp
    · intro k hk
      simp only [List.map_append, List.map_cons, List.map_nil, List.mem_append,
        List.mem_singleton, not_or]
      refine ⟨hfresh k (by simp [hk]), ?_⟩
      rintro rfl
      exact hnodup.1 hk

theorem lookup_eq_none_of_not_mem (o : Obj) (k : String) (h : k ∉ o.map Prod.fst) :
    o.lookup k = none := by
  induction o with
  | nil => rfl
  | cons p rest ih =>
    obtain ⟨a, b⟩ := p
    simp only [List.map_cons, List.mem_cons, not_or] at h
    rw [lookup_cons_ne _ _ _ _ h.1, ih h.2]

theorem lookup_spread (source target : Obj) (hnodup : (source.map Prod.fst).Nodup) (k : String) :
    (spread target source).lookup k =
      match source.lookup k with
      | some v => some v
      | none => target.lookup k := by
  induction source generalizing target with
  | nil => simp [spread]
  | cons p rest ih =>
    obtain ⟨a, b⟩ := p
    simp only [List.map_cons, List.nodup_cons] at hnodup
    have step : spread target ((a, b) :: rest) = spread (setProp target a b) rest := rfl
    rw [step, ih _ hnodup.2]
    by_cases h : k = a
    · subst h
      simp [lookup_eq_none_of_not_mem rest k hnodup.1, lookup_setProp]
    · simp [lookup_cons_ne _ _ _ _ h, lookup_setProp, h]

/-! ## The array: `findIndex`, `find`, `splice` and indexed assignment -/

theorem findIndex_eq_none (p : Obj → Bool) (l : List Obj) :
    findIndex p l = none ↔ ∀ m ∈ l, p m = false := by
  induction l with
  | nil => simp [findIndex]
  | cons a rest ih =>
    by_cases h : p a = true
    · simp [findIndex, h]
    · have hf : p a = false := by simpa using h
      simp [findIndex, hf, ih]

theorem findIndex_eq_some (p : Obj → Bool) (l : List Obj) (i : Nat)
    (h : findIndex p l = some i) :
    ∃ pre old post, l = pre ++ old :: post ∧ pre.length = i ∧
      (∀ m ∈ pre, p m = false) ∧ p old = true := by
  induction l generalizing i with
  | nil => simp [findIndex] at h
  | cons a rest ih =>
    by_cases hp : p a = true
    · simp only [findIndex, hp, if_true, Option.some.injEq] at h
      exact ⟨[], a, rest, rfl, by simpa using h, by simp, hp⟩
    · have hf : p a = false := by simpa using hp
      simp only [findIndex, hf, Bool.false_eq_true, if_false, Option.map_eq_some'] at h
      obtain ⟨j, hj, rfl⟩ := h
      obtain ⟨pre, old, post, rfl, hlen, hpre, hold⟩ := ih j hj
      refine ⟨a :: pre, old, post, rfl, by simp [hlen], ?_, hold⟩
      intro m hm
      rcases List.mem_cons.1 hm with rfl | hm
      · exact hf
      · exact hpre m hm

theorem findIndex_of_mem (p : Obj → Bool) (l : List Obj) (h : ∃ m ∈ l, p m = true) :
    ∃ i, findIndex p l = some i := by
  cases hfi : findIndex p l with
  | some i => exact ⟨i, rfl⟩
  | none =>
    obtain ⟨m, hm, hpm⟩ := h
    have := (findIndex_eq_none p l).1 hfi m hm
    simp [this] at hpm

theorem find?_eq_none_of_absent (p : Obj → Bool) (l : List Obj) (h : ∀ m ∈ l, p m = false) :
    l.find? p = none := by
  simp only [List.find?_eq_none]
  intro m hm
  simp [h m hm]

theorem find?_split (p : Obj → Bool) (pre post : List Obj) (old : Obj)
    (hpre : ∀ m ∈ pre, p m = false) (hold : p old = true) :
    (pre ++ old :: post).find? p = some old := by
  simp [List.find?_append, find?_eq_none_of_absent p pre hpre, List.find?_cons, hold]

theorem getElem?_split (pre post : List Obj) (old : Obj) :
    (pre ++ old :: post)[pre.length]? = some old := by
  rw [List.getElem?_append_right (Nat.le_refl _)]
  simp

theorem set_split (pre post : List Obj) (old new : Obj) :
    (pre ++ old :: post).set pre.length new = pre ++ new :: post := by
  simp

theorem eraseIdx_split (pre post : List Obj) (old : Obj) :
    (pre ++ old :: post).eraseIdx pre.length = pre ++ post := by
  rw [List.eraseIdx_append_of_length_le (Nat.le_refl _)]
  simp

theorem hasId_iff_movieId (id : String) (movie : Obj) :
    hasId id movie = true ↔ movieId movie = some id := by
  unfold hasId movieId
  split <;> simp_all

/-! ## The object parser -/

theorem parseFields_keys (shape : Shape) (path : List PathSeg) (o : Obj) :
    (parseFields shape path o).map Prod.fst = shape.map Prod.fst := by
  simp [parseFields, List.map_map, Function.comp_def]

theorem finalObject_keys_sublist (fields : List (String × ParseResult)) :
    ((finalObject fields).map Prod.fst).Sublist (fields.map Prod.fst) := by
  induction fields with
  | nil => simp [finalObject]
  | cons f rest ih =>
    obtain ⟨k, r⟩ := f
    cases hv : r.value with
    | none => simpa [finalObject, hv] using ih.cons k
    | some v => simpa [finalObject, hv] using ih.cons₂ k

theorem safeParse_ok (shape : Shape) (input : Json) (data : Obj)
    (h : safeParse shape input = .ok data) :
    ∃ o, input = .obj o ∧ data = finalObject (parseFields shape [] o) ∧
      ∀ ks ∈ shape, (ks.2 ([] ++ [.key ks.1]) (o.lookup ks.1)).issues = [] := by
  cases input with
  | obj o =>
    refine ⟨o, rfl, ?_⟩
    simp only [safeParse] at h
    split at h
    · rename_i hempty
      simp only [Except.ok.injEq] at h
      refine ⟨h.symm, ?_⟩
      intro ks hks
      have hnil := List.isEmpty_iff.1 hempty
      rw [List.flatMap_eq_nil_iff] at hnil
      exact hnil (ks.1, ks.2 ([] ++ [.key ks.1]) (o.lookup ks.1))
        (by simp only [parseFields, List.mem_map]; exact ⟨ks, hks, rfl⟩)
    · cases h
  | null => simp [safeParse] at h
  | bool b => simp [safeParse] at h
  | num n => simp [safeParse] at h
  | str s => simp [safeParse] at h
  | arr xs => simp [safeParse] at h

theorem safeParse_of_no_issues (shape : Shape) (o : Obj)
    (h : ∀ ks ∈ shape, (ks.2 ([] ++ [.key ks.1]) (o.lookup ks.1)).issues = []) :
    safeParse shape (.obj o) = .ok (finalObject (parseFields shape [] o)) := by
  have hnil : (parseFields shape [] o).flatMap (fun kr => kr.2.issues) = [] := by
    rw [List.flatMap_eq_nil_iff]
    intro kr hkr
    simp only [parseFields, List.mem_map] at hkr
    obtain ⟨ks, hks, rfl⟩ := hkr
    exact h ks hks
  simp [safeParse, hnil]

theorem safeParse_error_of_issue (shape : Shape) (o : Obj) (k : String) (s : Schema)
    (issue : ZodIssue) (hks : (k, s) ∈ shape)
    (hissue : issue ∈ (s ([] ++ [.key k]) (o.lookup k)).issues) :
    ∃ issues, safeParse shape (.obj o) = .error issues ∧ issue ∈ issues := by
  have hmem : issue ∈ (parseFields shape [] o).flatMap (fun kr => kr.2.issues) := by
    rw [List.mem_flatMap]
    exact ⟨(k, s ([] ++ [.key k]) (o.lookup k)),
      by simp only [parseFields, List.mem_map]; exact ⟨(k, s), hks, rfl⟩, hissue⟩
  have hne : ((parseFields shape [] o).flatMap (fun kr => kr.2.issues)).isEmpty = false := by
    cases hl : (parseFields shape [] o).flatMap (fun kr => kr.2.issues) with
    | nil => rw [hl] at hmem; cases hmem
    | cons a b => rfl
  exact ⟨_, by simp only [safeParse, hne]; rfl, hmem⟩

theorem safeParse_keys (shape : Shape) (input : Json) (data : Obj)
    (h : safeParse shape input = .ok data) :
    (data.map Prod.fst).Sublist (shape.map Prod.fst) := by
  obtain ⟨o, -, rfl, -⟩ := safeParse_ok shape input data h
  have := finalObject_keys_sublist (parseFields shape [] o)
  rwa [parseFields_keys] at this

theorem movieSchema_keys (B : Builtins) : (movieSchema B).map Prod.fst = schemaKeys := rfl

theorem partialShape_keys (shape : Shape) :
    (partialShape shape).map Prod.fst = shape.map Prod.fst := by
  simp [partialShape, List.map_map, Function.comp_def]

theorem schemaKeys_nodup : schemaKeys.Nodup := by decide

theorem validateMovie_keys (B : Builtins) (input : Json) (data : Obj)
    (h : validateMovie B input = .ok data) :
    (data.map Prod.fst).Sublist schemaKeys := by
  have := safeParse_keys _ _ _ h
  rwa [movieSchema_keys] at this

theorem validatePartialMovie_keys (B : Builtins) (input : Json) (data : Obj)
    (h : validatePartialMovie B input = .ok data) :
    (data.map Prod.fst).Sublist schemaKeys := by
  have := safeParse_keys _ _ _ h
  rwa [partialShape_keys, movieSchema_keys] at this

/-! ## The field parsers hand back the value they were given -/

theorem zString_value (B : Builtins) (re ite : Option String) (checks : List StringCheck)
    (path : List PathSeg) (v : Json)
    (h : (zString B re ite checks path (some v)).issues = []) :
    (zString B re ite checks path (some v)).value = some v := by
  cases v <;> simp [zString] at h ⊢

theorem zNumber_value (re ite : Option String) (checks : List NumberCheck)
    (path : List PathSeg) (v : Json)
    (h : (zNumber re ite checks path (some v)).issues = []) :
    (zNumber re ite checks path (some v)).value = some v := by
  cases v <;> simp [zNumber] at h ⊢

theorem zEnum_value (options : List String) (path : List PathSeg) (v : Json)
    (h : (zEnum options path (some v)).issues = []) :
    (zEnum options path (some v)).value = some v := by
  cases v with
  | str s =>
    by_cases hc : s ∈ options
    · simp [zEnum, hc]
    · simp [zEnum, hc] at h
  | null => simp [zEnum] at h
  | bool b => simp [zEnum] at h
  | num n => simp [zEnum] at h
  | arr xs => simp [zEnum] at h
  | obj o => simp [zEnum] at h

theorem elementValues_of_no_issues (element : Schema) (path : List PathSeg)
    (helement : ∀ p v, (element p (some v)).issues = [] → (element p (some v)).value = some v)
    (xs : List Json) (i : Nat)
    (h : (parseElements element path i xs).flatMap (fun r => r.issues) = []) :
    elementValues (parseElements element path i xs) = xs := by
  induction xs generalizing i with
  | nil => rfl
  | cons x rest ih =>
    simp only [parseElements, List.flatMap_cons, List.append_eq_nil] at h
    simp only [parseElements, elementValues, helement _ _ h.1, ih _ h.2]

theorem zArray_value (re ite : Option String) (element : Schema)
    (helement : ∀ p v, (element p (some v)).issues = [] → (element p (some v)).value = some v)
    (path : List PathSeg) (v : Json)
    (h : (zArray re ite element path (some v)).issues = []) :
    (zArray re ite element path (some v)).value = some v := by
  cases v with
  | arr xs =>
    simp only [zArray] at h
    simp only [zArray, h, List.isEmpty_nil, if_true]
    rw [elementValues_of_no_issues element path helement xs 0 h]
  | null => simp [zArray] at h
  | bool b => simp [zArray] at h
  | num n => simp [zArray] at h
  | str s => simp [zArray] at h
  | obj o => simp [zArray] at h

theorem zOptional_value (inner : Schema)
    (hinner : ∀ p v, (inner p (some v)).issues = [] → (inner p (some v)).value = some v)
    (path : List PathSeg) (input : Option Json)
    (h : (zOptional inner path input).issues = []) :
    (zOptional inner path input).value = input := by
  cases input with
  | none => rfl
  | some v => exact hinner path v h

theorem movieSchema_value (B : Builtins) :
    ∀ ks ∈ movieSchema B, ∀ (p : List PathSeg) (v : Json),
      (ks.2 p (some v)).issues = [] → (ks.2 p (some v)).value = some v := by
  intro ks hks p v h
  simp only [movieSchema, List.mem_cons, List.mem_singleton, List.not_mem_nil, or_false] at hks
  rcases hks with rfl | rfl | rfl | rfl | rfl | rfl | rfl
  · exact zString_value _ _ _ _ _ _ h
  · exact zNumber_value _ _ _ _ _ h
  · exact zString_value _ _ _ _ _ _ h
  · exact zNumber_value _ _ _ _ _ h
  · exact zNumber_value _ _ _ _ _ h
  · exact zString_value _ _ _ _ _ _ h
  · exact zArray_value _ _ _ (zEnum_value genreOptions) _ _ h

theorem finalObject_of_value (shape : Shape) (path : List PathSeg) (o : Obj)
    (hvalue : ∀ ks ∈ shape, (ks.2 (path ++ [.key ks.1]) (o.lookup ks.1)).value = o.lookup ks.1) :
    finalObject (parseFields shape path o) =
      (shape.map Prod.fst).filterMap (fun k => (o.lookup k).map (fun v => (k, v))) := by
  induction shape with
  | nil => rfl
  | cons ks rest ih =>
    have hrest := ih (fun x hx => hvalue x (List.mem_cons_of_mem _ hx))
    have hhead := hvalue ks (List.mem_cons_self _ _)
    simp only [parseFields] at hrest
    cases hl : o.lookup ks.1 with
    | none =>
      rw [hl] at hhead
      simp [parseFields, finalObject, hhead, hl, hrest]
    | some v =>
      rw [hl] at hhead
      simp [parseFields, finalObject, hhead, hl, hrest]

theorem lookup_presentFields (keys : List String) (o : Obj) (k : String) :
    (keys.filterMap (fun k => (o.lookup k).map (fun v => (k, v)))).lookup k =
      if k ∈ keys then o.lookup k else none := by
  induction keys with
  | nil => simp
  | cons a rest ih =>
    cases hl : o.lookup a with
    | none =>
      by_cases hka : k = a
      · subst hka
        simp only [List.filterMap_cons, hl, Option.map_none', ih]
        split <;> simp_all
      · simp [List.filterMap_cons, hl, ih, hka]
    | some v =>
      by_cases hka : k = a
      · subst hka
        simp [List.filterMap_cons, hl]
      · simp [List.filterMap_cons, hl, lookup_cons_ne _ _ _ _ hka, ih, hka]

/-- The data of a successful partial validation: the schema fields present in
the body, with the values of the body, in the order of the schema. -/
theorem validatePartialMovie_data (B : Builtins) (input : Json) (data : Obj)
    (h : validatePartialMovie B input = .ok data) :
    ∃ o, input = .obj o ∧
      data = schemaKeys.filterMap (fun k => (o.lookup k).map (fun v => (k, v))) := by
  obtain ⟨o, rfl, rfl, hissues⟩ := safeParse_ok _ _ _ h
  refine ⟨o, rfl, ?_⟩
  rw [finalObject_of_value, partialShape_keys, movieSchema_keys]
  intro ks hks
  have hks2 := hks
  simp only [partialShape, List.mem_map] at hks2
  obtain ⟨ks0, hks0, rfl⟩ := hks2
  exact zOptional_value ks0.2 (movieSchema_value B ks0 hks0) _ _ (hissues _ hks)

/-! ## The checks of the number fields -/

theorem isInteger_iff (n : JsNumber) : n.isInteger = true ↔ ∃ k : Int, n = .fin k := by
  cases n with
  | fin q =>
    simp only [JsNumber.isInteger, Rat.isInt, beq_iff_eq, JsNumber.fin.injEq]
    constructor
    · intro h
      exact ⟨q.num, (Rat.coe_int_num_of_den_eq_one h).symm⟩
    · rintro ⟨k, rfl⟩
      exact Rat.den_intCast k
  | posInf => simp [JsNumber.isInteger]
  | negInf => simp [JsNumber.isInteger]

theorem yearChecks_no_issues_iff (re ite : Option String) (path : List PathSeg) (n : JsNumber) :
    (zNumber re ite [.int, .min 1900 true, .max 2024 true] path (some (.num n))).issues = [] ↔
      ∃ year : Int, n = .fin year ∧ 1900 ≤ year ∧ year ≤ 2024 := by
  simp only [zNumber, List.flatMap_cons, List.flatMap_nil, List.append_nil, List.append_eq_nil,
    NumberCheck.run, if_true]
  constructor
  · rintro ⟨h1, h2, h3⟩
    have hint : n.isInteger = true := by
      by_contra hc
      simp [hc] at h1
    obtain ⟨k, rfl⟩ := (isInteger_iff n).1 hint
    refine ⟨k, rfl, ?_, ?_⟩
    · simp [JsNumber.ltConst] at h2
      exact_mod_cast h2
    · simp [JsNumber.gtConst] at h3
      exact_mod_cast h3
  · rintro ⟨k, rfl, hlo, hhi⟩
    have hint : (JsNumber.fin (k : Rat)).isInteger = true := (isInteger_iff _).2 ⟨k, rfl⟩
    simp [hint, JsNumber.ltConst, JsNumber.gtConst]
    exact ⟨by exact_mod_cast hlo, by exact_mod_cast hhi⟩

theorem durationChecks_no_issues_iff (re ite : Option String) (path : List PathSeg)
    (n : JsNumber) :
    (zNumber re ite [.int, .min 0 false] path (some (.num n))).issues = [] ↔
      ∃ duration : Int, n = .fin duration ∧ 0 < duration := by
  simp only [zNumber, List.flatMap_cons, List.flatMap_nil, List.append_nil, List.append_eq_nil,
    NumberCheck.run]
  constructor
  · rintro ⟨h1, h2⟩
    have hint : n.isInteger = true := by
      by_contra hc
      simp [hc] at h1
    obtain ⟨k, rfl⟩ := (isInteger_iff n).1 hint
    refine ⟨k, rfl, ?_⟩
    simp [JsNumber.leConst, JsNumber.gtConst] at h2
    exact h2
  · rintro ⟨k, rfl, hpos⟩
    have hint : (JsNumber.fin (k : Rat)).isInteger = true := (isInteger_iff _).2 ⟨k, rfl⟩
    simp [hint, JsNumber.leConst, JsNumber.gtConst]
    exact hpos

theorem rateChecks_no_issues_iff (re ite : Option String) (path : List PathSeg) (n : JsNumber) :
    (zNumber re ite [.min 0 true, .max 10 true] path (some (.num n))).issues = [] ↔
      ∃ rate : Rat, n = .fin rate ∧ 0 ≤ rate ∧ rate ≤ 10 := by
  simp only [zNumber, List.flatMap_cons, List.flatMap_nil, List.append_nil, List.append_eq_nil,
    NumberCheck.run, if_true]
  cases n with
  | fin q => simp [JsNumber.ltConst, JsNumber.gtConst]
  | posInf => simp [JsNumber.ltConst, JsNumber.gtConst]
  | negInf => simp [JsNumber.ltConst, JsNumber.gtConst]

theorem genreElements_no_issues (options : List String) (path : List PathSeg)
    (genres : List String) (i : Nat) (h : ∀ g ∈ genres, g ∈ options) :
    (parseElements (zEnum options) path i (genres.map Json.str)).flatMap (fun r => r.issues)
      = [] := by
  induction genres generalizing i with
  | nil => rfl
  | cons g rest ih =>
    have hg : g ∈ options := h g (List.mem_cons_self _ _)
    have hrest := ih (i + 1) (fun x hx => h x (List.mem_cons_of_mem _ hx))
    simp only [List.map_cons, parseElements, List.flatMap_cons, hrest, List.append_nil]
    simp [zEnum, hg]

theorem genreArray_parse (re ite : Option String) (options : List String) (path : List PathSeg)
    (genres : List String) (h : ∀ g ∈ genres, g ∈ options) :
    zArray re ite (zEnum options) path (some (.arr (genres.map Json.str))) =
      ⟨[], some (.arr (genres.map Json.str))⟩ := by
  have hi := genreElements_no_issues options path genres 0 h
  have hv := elementValues_of_no_issues (zEnum options) path (zEnum_value options)
    (genres.map Json.str) 0 hi
  simp only [zArray, hi, hv, List.isEmpty_nil, if_true]

/-! ## The full validation of a well-formed candidate -/

theorem validateMovie_of_fields (B : Builtins) (o : Obj) (title director poster : String)
    (year duration : Int) (genres : List String) (rateInput : Option Json) (rate : Rat)
    (htitle : o.lookup "title" = some (.str title))
    (hyear : o.lookup "year" = some (.num (.fin year)))
    (hyearLo : 1900 ≤ year) (hyearHi : year ≤ 2024)
    (hdirector : o.lookup "director" = some (.str director))
    (hduration : o.lookup "duration" = some (.num (.fin duration)))
    (hdurationPos : 0 < duration)
    (hposter : o.lookup "poster" = some (.str poster))
    (hurl : B.isUrl poster = true) (hjpg : endsWith poster ".jpg" = true)
    (hgenre : o.lookup "genre" = some (.arr (genres.map Json.str)))
    (hgenres : ∀ g ∈ genres, g ∈ genreOptions)
    (hrateInput : o.lookup "rate" = rateInput)
    (hrate : (rateInput = none ∧ rate = 5) ∨
      (rateInput = some (.num (.fin rate)) ∧ 0 ≤ rate ∧ rate ≤ 10)) :
    validateMovie B (.obj o) =
      .ok [("title", .str title), ("year", .num (.fin year)), ("director", .str director),
           ("duration", .num (.fin duration)), ("rate", .num (.fin rate)),
           ("poster", .str poster), ("genre", .arr (genres.map Json.str))] := by
  have hy := fun re ite p =>
    (yearChecks_no_issues_iff re ite p (.fin year)).2 ⟨year, rfl, hyearLo, hyearHi⟩
  have hd := fun re ite p =>
    (durationChecks_no_issues_iff re ite p (.fin duration)).2 ⟨duration, rfl, hdurationPos⟩
  have hg := fun re ite p => genreArray_parse re ite genreOptions p genres hgenres
  have hr : (zDefault (.num (JsNumber.ofInt 5)) (zNumber none none [.min 0 true, .max 10 true])
      [.key "rate"] rateInput).issues = [] ∧
      (zDefault (.num (JsNumber.ofInt 5)) (zNumber none none [.min 0 true, .max 10 true])
      [.key "rate"] rateInput).value = some (.num (.fin rate)) := by
    rcases hrate with ⟨rfl, rfl⟩ | ⟨rfl, hlo, hhi⟩
    · refine ⟨(rateChecks_no_issues_iff none none _ (JsNumber.ofInt 5)).2
        ⟨5, by simp [JsNumber.ofInt], by norm_num, by norm_num⟩, ?_⟩
      simp [zDefault, zNumber, JsNumber.ofInt]
    · exact ⟨(rateChecks_no_issues_iff none none _ (.fin rate)).2 ⟨rate, rfl, hlo, hhi⟩,
        by simp [zDefault, zNumber]⟩
  unfold validateMovie
  rw [safeParse_of_no_issues]
  · simp [parseFields, movieSchema, finalObject, htitle, hyear, hdirector, hduration, hposter,
      hgenre, hrateInput, hg, hr.2, zString, zNumber]
  · intro ks hks
    simp only [movieSchema, List.mem_cons, List.mem_singleton, List.not_mem_nil, or_false] at hks
    rcases hks with rfl | rfl | rfl | rfl | rfl | rfl | rfl
    · simp [htitle, zString]
    · simpa [hyear] using hy _ _ _
    · simp [hdirector, zString]
    · simpa [hduration] using hd _ _ _
    · simpa [hrateInput] using hr.1
    · simp [hposter, zString, StringCheck.run, hurl, hjpg]
    · simp [hgenre, hg]

theorem newMovie_eq (B : Builtins) (uuid : String) (body : Json) (data : Obj)
    (hvalid : validateMovie B body = .ok data) :
    spread [("id", .str uuid)] data = ("id", .str uuid) :: data := by
  have hsub := validateMovie_keys B body data hvalid
  have hnodup : (data.map Prod.fst).Nodup := hsub.nodup schemaKeys_nodup
  have hfresh : ∀ k ∈ data.map Prod.fst,
      k ∉ List.map Prod.fst [(("id", Json.str uuid) : String × Json)] := by
    intro k hk
    have hmem := hsub.subset hk
    simp only [List.map_cons, List.map_nil, List.mem_singleton]
    rintro rfl
    revert hmem
    decide
  exact spread_of_fresh data [("id", .str uuid)] hnodup hfresh

/-! ## The claims -/

/-- C1: when `validateMovie` succeeds on the body with `data`, `POST /movies` answers 201
with the record made of the generated id followed by exactly `data`, and the array
afterwards is the old array with that record appended at the end. -/
theorem post_valid_appends (B : Builtins) (uuid : String) (movies : List Obj) (body : Json)
    (data : Obj) (hvalid : validateMovie B body = .ok data) :
    postMovie B uuid movies body =
      (⟨201, [], .json (.obj (("id", .str uuid) :: data))⟩,
        movies ++ [("id", .str uuid) :: data]) := by
  simp only [postMovie, hvalid, newMovie_eq B uuid body data hvalid]

theorem post_valid_appends_witness :
    validateMovie asciiRuntime scenarioBody = .ok scenarioData ∧
    postMovie asciiRuntime "u7" [sampleMovie] scenarioBody =
      (⟨201, [], .json (.obj (("id", .str "u7") :: scenarioData))⟩,
        [sampleMovie] ++ [("id", .str "u7") :: scenarioData]) :=
  ⟨rfl, post_valid_appends asciiRuntime "u7" [sampleMovie] scenarioBody scenarioData rfl⟩

/-- C2: for a candidate whose fields other than `rate` satisfy the schema, `validateMovie`
succeeds; without a `rate` field the data has `rate = 5`, with a supplied rate in
`[0, 10]` the data keeps that rate, and every other schema field of the data is the
candidate's. -/
theorem validate_rate_default (B : Builtins) (o : Obj) (title director poster : String)
    (year duration : Int) (genres : List String)
    (htitle : o.lookup "title" = some (.str title))
    (hyear : o.lookup "year" = some (.num (.fin year)))
    (hyearLo : 1900 ≤ year) (hyearHi : year ≤ 2024)
    (hdirector : o.lookup "director" = some (.str director))
    (hduration : o.lookup "duration" = some (.num (.fin duration)))
    (hdurationPos : 0 < duration)
    (hposter : o.lookup "poster" = some (.str poster))
    (hurl : B.isUrl poster = true) (hjpg : endsWith poster ".jpg" = true)
    (hgenre : o.lookup "genre" = some (.arr (genres.map Json.str)))
    (hgenres : ∀ g ∈ genres, g ∈ genreOptions) :
    (o.lookup "rate" = none →
      validateMovie B (.obj o) =
        .ok [("title", .str title), ("year", .num (.fin year)), ("director", .str director),
             ("duration", .num (.fin duration)), ("rate", .num (.fin 5)),
             ("poster", .str poster), ("genre", .arr (genres.map Json.str))]) ∧
    (∀ rate : Rat, o.lookup "rate" = some (.num (.fin rate)) → 0 ≤ rate → rate ≤ 10 →
      validateMovie B (.obj o) =
        .ok [("title", .str title), ("year", .num (.fin year)), ("director", .str director),
             ("duration", .num (.fin duration)), ("rate", .num (.fin rate)),
             ("poster", .str poster), ("genre", .arr (genres.map Json.str))]) := by
  constructor
  · intro hnone
    exact validateMovie_of_fields B o title director poster year duration genres none 5
      htitle hyear hyearLo hyearHi hdirector hduration hdurationPos hposter hurl hjpg
      hgenre hgenres hnone (Or.inl ⟨rfl, rfl⟩)
  · intro rate hsome hlo hhi
    exact validateMovie_of_fields B o title director poster year duration genres _ rate
      htitle hyear hyearLo hyearHi hdirector hduration hdurationPos hposter hurl hjpg
      hgenre hgenres hsome (Or.inr ⟨rfl, hlo, hhi⟩)

/-- The body of the first scenario with the rate `15/2` supplied. -/
theorem validate_rate_default_witness :
    validateMovie asciiRuntime scenarioBody = .ok scenarioData ∧
    validateMovie asciiRuntime
        (.obj [("rate", .num (.fin (Rat.divInt 15 2))), ("title", .str "X"),
               ("year", .num (.fin 2020)), ("director", .str "D"),
               ("duration", .num (.fin 90)), ("poster", .str "http://a.com/p.jpg"),
               ("genre", .arr [.str "Action"])]) =
      .ok [("title", .str "X"), ("year", .num (.fin 2020)), ("director", .str "D"),
           ("duration", .num (.fin 90)), ("rate", .num (.fin (Rat.divInt 15 2))),
           ("poster", .str "http://a.com/p.jpg"), ("genre", .arr [.str "Action"])] :=
  ⟨(validate_rate_default asciiRuntime
      [("title", .str "X"), ("year", .num (.fin 2020)), ("director", .str "D"),
       ("duration", .num (.fin 90)), ("poster", .str "http://a.com/p.jpg"),
       ("genre", .arr [.str "Action"])]
      "X" "D" "http://a.com/p.jpg" 2020 90 ["Action"]
      rfl rfl (by decide) (by decide) rfl rfl (by decide) rfl rfl rfl rfl (by decide)).1 rfl,
   (validate_rate_default asciiRuntime
      [("rate", .num (.fin (Rat.divInt 15 2))), ("title", .str "X"),
       ("year", .num (.fin 2020)), ("director", .str "D"),
       ("duration", .num (.fin 90)), ("poster", .str "http://a.com/p.jpg"),
       ("genre", .arr [.str "Action"])]
      "X" "D" "http://a.com/p.jpg" 2020 90 ["Action"]
      rfl rfl (by decide) (by decide) rfl rfl (by decide) rfl rfl rfl rfl (by decide)).2
      (Rat.divInt 15 2) rfl (by decide) (by decide)⟩

/-- C3: `validateMovie` succeeds only on an object whose `year` is an integer with
`1900 ≤ year ≤ 2024`; and on every object whose `year` is a number that is not such an
integer, whatever the other fields, it fails with an issue whose path is the `year`
field. -/
theorem validate_year_range (B : Builtins) :
    (∀ (body : Json) (data : Obj), validateMovie B body = .ok data →
      ∃ (o : Obj) (year : Int), body = .obj o ∧
        o.lookup "year" = some (.num (.fin year)) ∧ 1900 ≤ year ∧ year ≤ 2024) ∧
    (∀ (o : Obj) (n : JsNumber), o.lookup "year" = some (.num n) →
      (¬ ∃ year : Int, n = .fin year ∧ 1900 ≤ year ∧ year ≤ 2024) →
      ∃ issues, validateMovie B (.obj o) = .error issues ∧
        ∃ issue ∈ issues, issue.path = [.key "year"]) := by
  constructor
  · intro body data h
    obtain ⟨o, rfl, -, hissues⟩ := safeParse_ok _ _ _ h
    have hy := hissues ("year", zNumber (some "Movie year is required")
      (some "Movie year must be a number") [.int, .min 1900 true, .max 2024 true])
      (by simp [movieSchema])
    cases hl : o.lookup "year" with
    | none => simp [hl, zNumber] at hy
    | some v =>
      cases v with
      | num n =>
        simp only [hl] at hy
        obtain ⟨year, rfl, hlo, hhi⟩ := (yearChecks_no_issues_iff _ _ _ n).1 hy
        exact ⟨o, year, rfl, hl, hlo, hhi⟩
      | null => simp [hl, zNumber] at hy
      | bool b => simp [hl, zNumber] at hy
      | str s => simp [hl, zNumber] at hy
      | arr xs => simp [hl, zNumber] at hy
      | obj kvs => simp [hl, zNumber] at hy
  · intro o n hl hbad
    have hne : (zNumber (some "Movie year is required") (some "Movie year must be a number")
        [.int, .min 1900 true, .max 2024 true] ([] ++ [.key "year"]) (o.lookup "year")).issues
        ≠ [] := by
      rw [hl]
      exact fun h => hbad ((yearChecks_no_issues_iff _ _ _ n).1 h)
    obtain ⟨issue, hissue⟩ := List.exists_mem_of_ne_nil _ hne
    have hpath : issue.path = [.key "year"] := by
      rw [hl] at hissue
      simp only [zNumber, List.flatMap_cons, List.flatMap_nil, List.append_nil,
        List.mem_append, NumberCheck.run, List.nil_append, if_true] at hissue
      rcases hissue with h | h | h
      · split at h
        · cases h
        · rw [List.mem_singleton.1 h]; rfl
      · split at h
        · rw [List.mem_singleton.1 h]
        · cases h
      · split at h
        · rw [List.mem_singleton.1 h]
        · cases h
    obtain ⟨issues, herr, hmem⟩ := safeParse_error_of_issue (movieSchema B) o "year" _ issue
      (by simp [movieSchema]) hissue
    exact ⟨issues, herr, issue, hmem, hpath⟩

theorem validate_year_range_witness :
    (∃ (o : Obj) (year : Int), scenarioBody = .obj o ∧
        o.lookup "year" = some (.num (.fin year)) ∧ 1900 ≤ year ∧ year ≤ 2024) ∧
    (∃ issues, validateMovie asciiRuntime (.obj [("year", .num (.fin 2025))]) = .error issues ∧
        ∃ issue ∈ issues, issue.path = [.key "year"]) ∧
    (∃ issues, validateMovie asciiRuntime
          (.obj [("title", .str "X"), ("year", .num (.fin (Rat.divInt 4041 2))),
                 ("director", .str "D"), ("duration", .num (.fin 90)),
                 ("poster", .str "http://a.com/p.jpg"), ("genre", .arr [.str "Action"])])
          = .error issues ∧
        ∃ issue ∈ issues, issue.path = [.key "year"]) :=
  ⟨(validate_year_range asciiRuntime).1 scenarioBody scenarioData rfl,
   (validate_year_range asciiRuntime).2 [("year", .num (.fin 2025))] (.fin 2025) rfl
      (by
        rintro ⟨y, hy, -, hhi⟩
        have h1 : ((2025 : Int) : Rat) = (y : Rat) := by
          have := JsNumber.fin.inj hy
          exact_mod_cast this
        have h2 : (2025 : Int) = y := by exact_mod_cast h1
        omega),
   (validate_year_range asciiRuntime).2 _ (.fin (Rat.divInt 4041 2)) rfl
      (by
        rintro ⟨y, hy, -, -⟩
        have h1 := congrArg Rat.den (JsNumber.fin.inj hy)
        rw [Rat.den_intCast] at h1
        revert h1
        decide)⟩

/-- C4: when a record of the array has id `id` and `validatePartialMovie` succeeds on the
body, `PATCH /movies/id` answers 200 with the merged record: every schema field present
in the body has the value of the body, every field absent from the body keeps the stored
value, the merged record takes the place of the first record with that id and the other
records are unchanged.  With the body `{rate: 9}` only `rate` changes. -/
theorem patch_merges (B : Builtins) (movies : List Obj) (id : String)
    (hmem : ∃ m ∈ movies, hasId id m = true) :
    ∃ pre old post, movies = pre ++ old :: post ∧ (∀ m ∈ pre, hasId id m = false) ∧
      hasId id old = true ∧
      (∀ (body : Json) (data : Obj), validatePartialMovie B body = .ok data →
        ∃ o merged, body = .obj o ∧ merged = spread old data ∧
          patchMovie B movies id body =
            (⟨200, [], .json (.obj merged)⟩, pre ++ merged :: post) ∧
          (∀ k ∈ schemaKeys, ∀ v, o.lookup k = some v → merged.lookup k = some v) ∧
          (∀ k, o.lookup k = none → merged.lookup k = old.lookup k)) ∧
      (∃ merged,
        patchMovie B movies id (.obj [("rate", .num (.fin 9))]) =
          (⟨200, [], .json (.obj merged)⟩, pre ++ merged :: post) ∧
        merged.lookup "rate" = some (.num (.fin 9)) ∧
        ∀ k, k ≠ "rate" → merged.lookup k = old.lookup k) := by
  obtain ⟨i, hi⟩ := findIndex_of_mem (hasId id) movies hmem
  obtain ⟨pre, old, post, rfl, rfl, hpre, hold⟩ := findIndex_eq_some _ _ _ hi
  have hpatch : ∀ (body : Json) (data : Obj), validatePartialMovie B body = .ok data →
      patchMovie B (pre ++ old :: post) id body =
        (⟨200, [], .json (.obj (spread old data))⟩, pre ++ spread old data :: post) := by
    intro body data hvalid
    simp only [patchMovie, hvalid, hi, getElem?_split, Option.getD_some, set_split]
  refine ⟨pre, old, post, rfl, hpre, hold, ?_, ?_⟩
  · intro body data hvalid
    obtain ⟨o, rfl, hdata⟩ := validatePartialMovie_data B body data hvalid
    have hnodup : (data.map Prod.fst).Nodup :=
      (validatePartialMovie_keys B _ data hvalid).nodup schemaKeys_nodup
    have hlookup : ∀ k, data.lookup k = if k ∈ schemaKeys then o.lookup k else none := by
      intro k
      rw [hdata]
      exact lookup_presentFields schemaKeys o k
    refine ⟨o, spread old data, rfl, rfl, hpatch _ data hvalid, ?_, ?_⟩
    · intro k hk v hv
      rw [lookup_spread data old hnodup k, hlookup k, if_pos hk, hv]
    · intro k hk
      rw [lookup_spread data old hnodup k, hlookup k, hk]
      simp
  · have hvalid : validatePartialMovie B (.obj [("rate", .num (.fin 9))]) =
        .ok [("rate", .num (.fin 9))] := by rfl
    refine ⟨setProp old "rate" (.num (.fin 9)), hpatch _ _ hvalid, ?_, ?_⟩
    · simp [lookup_setProp]
    · intro k hk
      simp [lookup_setProp, hk]

theorem patch_merges_witness :
    (∃ m ∈ [sampleMovie, otherMovie], hasId "b2" m = true) ∧
    ∃ pre old post, [sampleMovie, otherMovie] = pre ++ old :: post ∧
      (∀ m ∈ pre, hasId "b2" m = false) ∧ hasId "b2" old = true ∧
      (∀ (body : Json) (data : Obj), validatePartialMovie asciiRuntime body = .ok data →
        ∃ o merged, body = .obj o ∧ merged = spread old data ∧
          patchMovie asciiRuntime [sampleMovie, otherMovie] "b2" body =
            (⟨200, [], .json (.obj merged)⟩, pre ++ merged :: post) ∧
          (∀ k ∈ schemaKeys, ∀ v, o.lookup k = some v → merged.lookup k = some v) ∧
          (∀ k, o.lookup k = none → merged.lookup k = old.lookup k)) ∧
      (∃ merged,
        patchMovie asciiRuntime [sampleMovie, otherMovie] "b2"
            (.obj [("rate", .num (.fin 9))]) =
          (⟨200, [], .json (.obj merged)⟩, pre ++ merged :: post) ∧
        merged.lookup "rate" = some (.num (.fin 9)) ∧
        ∀ k, k ≠ "rate" → merged.lookup k = old.lookup k) :=
  ⟨⟨otherMovie, List.mem_cons_of_mem _ (List.mem_cons_self _ _), rfl⟩,
   patch_merges asciiRuntime [sampleMovie, otherMovie] "b2"
     ⟨otherMovie, List.mem_cons_of_mem _ (List.mem_cons_self _ _), rfl⟩⟩

/-- C5: for an id that no record of the array carries, `GET /movies/:id`,
`PATCH /movies/:id` (with a body that passes the partial validation) and
`DELETE /movies/:id` answer 404 and leave the array unchanged; a second delete of the
same id answers 404 again, on an array of the same length. -/
theorem absent_id_not_found (B : Builtins) (movies : List Obj) (origin origin' : Option String)
    (id : String) (body : Json) (data : Obj)
    (habsent : ∀ m ∈ movies, hasId id m = false)
    (hvalid : validatePartialMovie B body = .ok data) :
    getMovieById movies id = ⟨404, [], messageBody "Movie not found"⟩ ∧
    patchMovie B movies id body = (⟨404, [], messageBody "Movie not found"⟩, movies) ∧
    deleteMovie movies origin id =
      (⟨404, corsHeaders origin, messageBody "Movie not found"⟩, movies) ∧
    deleteMovie (deleteMovie movies origin id).2 origin' id =
      (⟨404, corsHeaders origin', messageBody "Movie not found"⟩, movies) ∧
    (deleteMovie (deleteMovie movies origin id).2 origin' id).2.length = movies.length := by
  have hfind := find?_eq_none_of_absent (hasId id) movies habsent
  have hidx := (findIndex_eq_none (hasId id) movies).2 habsent
  have hdel : ∀ o : Option String, deleteMovie movies o id =
      (⟨404, corsHeaders o, messageBody "Movie not found"⟩, movies) := by
    intro o
    simp only [deleteMovie, hidx]
  refine ⟨?_, ?_, hdel origin, ?_, ?_⟩
  · simp only [getMovieById, hfind]
  · simp only [patchMovie, hvalid, hidx]
  · rw [hdel origin]
    exact hdel origin'
  · rw [hdel origin, hdel origin']

theorem absent_id_not_found_witness :
    (∀ m ∈ [sampleMovie, otherMovie], hasId "zz" m = false) ∧
    validatePartialMovie asciiRuntime (.obj [("rate", .num (.fin 9))]) =
      .ok [("rate", .num (.fin 9))] ∧
    getMovieById [sampleMovie, otherMovie] "zz" = ⟨404, [], messageBody "Movie not found"⟩ ∧
    patchMovie asciiRuntime [sampleMovie, otherMovie] "zz" (.obj [("rate", .num (.fin 9))]) =
      (⟨404, [], messageBody "Movie not found"⟩, [sampleMovie, otherMovie]) ∧
    deleteMovie [sampleMovie, otherMovie] none "zz" =
      (⟨404, corsHeaders none, messageBody "Movie not found"⟩, [sampleMovie, otherMovie]) ∧
    deleteMovie (deleteMovie [sampleMovie, otherMovie] none "zz").2 none "zz" =
      (⟨404, corsHeaders none, messageBody "Movie not found"⟩, [sampleMovie, otherMovie]) ∧
    (deleteMovie (deleteMovie [sampleMovie, otherMovie] none "zz").2 none "zz").2.length =
      [sampleMovie, otherMovie].length :=
  ⟨by decide, rfl,
   absent_id_not_found asciiRuntime [sampleMovie, otherMovie] none none "zz"
     (.obj [("rate", .num (.fin 9))]) [("rate", .num (.fin 9))] (by decide) rfl⟩

/-- C6: if `POST /movies` answers 201 with the record `r` and no record of the array
before carried the generated id, then `GET /movies/<id of r>` on the array afterwards
answers 200 with exactly `r`, and the schema fields of `r` are those of the validated
data. -/
theorem post_get_roundtrip (B : Builtins) (uuid : String) (movies movies' : List Obj)
    (body : Json) (r : Obj)
    (hpost : postMovie B uuid movies body = (⟨201, [], .json (.obj r)⟩, movies'))
    (hfresh : ∀ m ∈ movies, hasId uuid m = false) :
    r.lookup "id" = some (.str uuid) ∧
    getMovieById movies' uuid = ⟨200, [], .json (.obj r)⟩ ∧
    ∃ data, validateMovie B body = .ok data ∧ ∀ k ∈ schemaKeys, r.lookup k = data.lookup k := by
  cases hvalid : validateMovie B body with
  | error issues =>
    simp [postMovie, hvalid] at hpost
  | ok data =>
    simp only [postMovie, hvalid, newMovie_eq B uuid body data hvalid, Prod.mk.injEq,
      Response.mk.injEq, Body.json.injEq, Json.obj.injEq, true_and] at hpost
    obtain ⟨rfl, rfl⟩ := hpost
    have hid : hasId uuid (("id", Json.str uuid) :: data) = true := by
      simp [hasId]
    refine ⟨by simp, ?_, data, rfl, ?_⟩
    · have := find?_split (hasId uuid) movies [] _ hfresh hid
      simp only [getMovieById, this]
    · intro k hk
      have hne : k ≠ "id" := by
        rintro rfl
        revert hk
        decide
      exact lookup_cons_ne data "id" k _ hne

theorem post_get_roundtrip_witness :
    postMovie asciiRuntime "u7" [sampleMovie, otherMovie] scenarioBody =
      (⟨201, [], .json (.obj (("id", .str "u7") :: scenarioData))⟩,
        [sampleMovie, otherMovie, ("id", .str "u7") :: scenarioData]) ∧
    (∀ m ∈ [sampleMovie, otherMovie], hasId "u7" m = false) ∧
    List.lookup "id" (("id", Json.str "u7") :: scenarioData) = some (.str "u7") ∧
    getMovieById [sampleMovie, otherMovie, ("id", .str "u7") :: scenarioData] "u7" =
      ⟨200, [], .json (.obj (("id", .str "u7") :: scenarioData))⟩ ∧
    ∃ data, validateMovie asciiRuntime scenarioBody = .ok data ∧
      ∀ k ∈ schemaKeys,
        List.lookup k (("id", Json.str "u7") :: scenarioData) = data.lookup k :=
  ⟨rfl, by decide,
   post_get_roundtrip asciiRuntime "u7" [sampleMovie, otherMovie]
     [sampleMovie, otherMovie, ("id", .str "u7") :: scenarioData] scenarioBody
     (("id", .str "u7") :: scenarioData) rfl (by decide)⟩

theorem not_hasId_of_unique (id : String) (pre post : List Obj) (old : Obj)
    (huniq : UniqueIds (pre ++ old :: post)) (hold : hasId id old = true) :
    ∀ m ∈ post, hasId id m = false := by
  intro m hm
  by_contra hc
  have hmid : movieId m = some id := (hasId_iff_movieId id m).1 (by simpa using hc)
  have hoid : movieId old = some id := (hasId_iff_movieId id old).1 hold
  unfold UniqueIds at huniq
  rw [List.filterMap_append, List.filterMap_cons, hoid] at huniq
  have h2 := (List.nodup_append.1 huniq).2.1
  have h3 : id ∉ post.filterMap movieId := (List.nodup_cons.1 h2).1
  exact h3 (List.mem_filterMap.2 ⟨m, hm, hmid⟩)

/-- C7: on an array in which no two records share an id, for an id carried by a record,
`DELETE /movies/id` answers 204 and `GET /movies/id` on the array afterwards answers
404. -/
theorem delete_then_get (movies : List Obj) (origin : Option String) (id : String)
    (huniq : UniqueIds movies) (hmem : ∃ m ∈ movies, hasId id m = true) :
    (deleteMovie movies origin id).1 =
      ⟨204, corsHeaders origin, .json (.obj [("meesage", .str "Movie deleted")])⟩ ∧
    getMovieById (deleteMovie movies origin id).2 id =
      ⟨404, [], messageBody "Movie not found"⟩ := by
  obtain ⟨i, hi⟩ := findIndex_of_mem (hasId id) movies hmem
  obtain ⟨pre, old, post, rfl, rfl, hpre, hold⟩ := findIndex_eq_some _ _ _ hi
  have hpost := not_hasId_of_unique id pre post old huniq hold
  have habsent : ∀ m ∈ pre ++ post, hasId id m = false := by
    intro m hm
    rcases List.mem_append.1 hm with h | h
    · exact hpre m h
    · exact hpost m h
  simp only [deleteMovie, hi, eraseIdx_split, getMovieById,
    find?_eq_none_of_absent (hasId id) _ habsent, and_self]

theorem delete_then_get_witness :
    UniqueIds [sampleMovie, otherMovie] ∧
    (∃ m ∈ [sampleMovie, otherMovie], hasId "a1" m = true) ∧
    (deleteMovie [sampleMovie, otherMovie] (some "https://midu.dev") "a1").1 =
      ⟨204, corsHeaders (some "https://midu.dev"),
        .json (.obj [("meesage", .str "Movie deleted")])⟩ ∧
    getMovieById (deleteMovie [sampleMovie, otherMovie] (some "https://midu.dev") "a1").2 "a1" =
      ⟨404, [], messageBody "Movie not found"⟩ :=
  ⟨by decide, ⟨sampleMovie, List.mem_cons_self _ _, rfl⟩,
   delete_then_get [sampleMovie, otherMovie] (some "https://midu.dev") "a1" (by decide)
     ⟨sampleMovie, List.mem_cons_self _ _, rfl⟩⟩

/-- C8: when `validateMovie` fails on the body with `issues`, `POST /movies` answers 400
with the body `{error: issues}` and leaves the array unchanged. -/
theorem post_invalid_rejected (B : Builtins) (uuid : String) (movies : List Obj) (body : Json)
    (issues : List ZodIssue) (hinvalid : validateMovie B body = .error issues) :
    postMovie B uuid movies body = (⟨400, [], .error issues⟩, movies) := by
  simp only [postMovie, hinvalid]

theorem post_invalid_rejected_witness :
    validateMovie asciiRuntime (.arr []) =
      .error [⟨"invalid_type", [], "Expected object, received array"⟩] ∧
    postMovie asciiRuntime "u7" [sampleMovie] (.arr []) =
      (⟨400, [], .error [⟨"invalid_type", [], "Expected object, received array"⟩]⟩,
        [sampleMovie]) :=
  ⟨rfl, post_invalid_rejected asciiRuntime "u7" [sampleMovie] (.arr []) _ rfl⟩

/-- C9: when `validatePartialMovie` fails on the body, `PATCH /movies/:id` answers 400
with the issues and leaves the array unchanged, whatever the id; and it answers 404 only
when the body is valid and no record carries the id. -/
theorem patch_invalid_rejected (B : Builtins) (movies : List Obj) (id : String) (body : Json) :
    (∀ issues, validatePartialMovie B body = .error issues →
      patchMovie B movies id body = (⟨400, [], .error issues⟩, movies)) ∧
    ((patchMovie B movies id body).1.status = 404 →
      (∃ data, validatePartialMovie B body = .ok data) ∧ ∀ m ∈ movies, hasId id m = false) := by
  constructor
  · intro issues hinvalid
    simp only [patchMovie, hinvalid]
  · intro hstatus
    cases hvalid : validatePartialMovie B body with
    | error issues => simp [patchMovie, hvalid] at hstatus
    | ok data =>
      refine ⟨⟨data, rfl⟩, ?_⟩
      cases hidx : findIndex (hasId id) movies with
      | none => exact (findIndex_eq_none _ _).1 hidx
      | some i => simp [patchMovie, hvalid, hidx] at hstatus

theorem patch_invalid_rejected_witness :
    (validatePartialMovie asciiRuntime (.obj [("year", .str "x")]) =
        .error [⟨"invalid_type", [.key "year"], "Movie year must be a number"⟩] ∧
      patchMovie asciiRuntime [sampleMovie] "a1" (.obj [("year", .str "x")]) =
        (⟨400, [], .error [⟨"invalid_type", [.key "year"], "Movie year must be a number"⟩]⟩,
          [sampleMovie])) ∧
    ((patchMovie asciiRuntime [sampleMovie] "zz" (.obj [])).1.status = 404 ∧
      (∃ data, validatePartialMovie asciiRuntime (.obj []) = .ok data) ∧
      ∀ m ∈ [sampleMovie], hasId "zz" m = false) :=
  ⟨⟨rfl, (patch_invalid_rejected asciiRuntime [sampleMovie] "a1" (.obj [("year", .str "x")])).1
      _ rfl⟩,
   ⟨rfl, (patch_invalid_rejected asciiRuntime [sampleMovie] "zz" (.obj [])).2 rfl⟩⟩

/-- C10: the genre routes do not filter.  On an array whose only record has the genre
list `["Action"]`, no element of which matches `Comedy`, both `GET /movies/genre/Comedy`
and `GET /movies?genre=Comedy` answer 200 with that record instead of the empty list. -/
theorem genre_routes_keep_nonmatching :
    someGenre asciiRuntime "Comedy" [.str "Action"] = .ok false ∧
    sampleMovie.lookup "genre" = some (.arr [.str "Action"]) ∧
    getMoviesByGenre asciiRuntime [sampleMovie] "Comedy" =
      .ok ⟨200, [], moviesBody [sampleMovie]⟩ ∧
    getMovies asciiRuntime [sampleMovie] none (some "Comedy") =
      .ok ⟨200, corsHeaders none, moviesBody [sampleMovie]⟩ :=
  ⟨rfl, rfl, rfl, rfl⟩

/-! ## The director route -/

theorem includes_iff (s sub : String) :
    includes s sub = true ↔ List.IsInfix sub.data s.data := by
  simp only [includes, List.any_eq_true, List.mem_tails, List.isPrefixOf_iff_prefix,
    List.infix_iff_prefix_suffix]
  constructor <;> rintro ⟨x, h1, h2⟩ <;> exact ⟨x, h2, h1⟩

theorem filterMovies_directorCallback (B : Builtins) (d : String) (movies : List Obj)
    (hdir : ∀ m ∈ movies, ∃ dir, m.lookup "director" = some (.str dir)) :
    filterMovies (directorCallback B d) movies =
      .ok (movies.filter (fun m =>
        match m.lookup "director" with
        | some (.str dir) =>
          decide (List.IsInfix (B.toLowerCase d).data (B.toLowerCase dir).data)
        | _ => false)) := by
  induction movies with
  | nil => rfl
  | cons m rest ih =>
    obtain ⟨dir, hm⟩ := hdir m (List.mem_cons_self _ _)
    have hrest := ih (fun x hx => hdir x (List.mem_cons_of_mem _ hx))
    by_cases hinc : includes (B.toLowerCase dir) (B.toLowerCase d) = true
    · have hinfix := (includes_iff _ _).1 hinc
      simp [filterMovies, directorCallback, hm, hrest, truthy, hinc, hinfix, List.filter_cons]
    · have hinfix : ¬ List.IsInfix (B.toLowerCase d).data (B.toLowerCase dir).data :=
        fun h => hinc ((includes_iff _ _).2 h)
      have hf : includes (B.toLowerCase dir) (B.toLowerCase d) = false := by simpa using hinc
      simp [filterMovies, directorCallback, hm, hrest, truthy, hf, hinfix, List.filter_cons]

/-- C11: on an array whose records each carry a director string,
`GET /movies/director/d` answers 200 with exactly the records, in the order of the
array, whose lower-cased director has the lower-cased `d` as a contiguous part; when no
record matches the answer is 200 with the empty list. -/
theorem director_route_filters (B : Builtins) (movies : List Obj) (d : String)
    (hdir : ∀ m ∈ movies, ∃ dir, m.lookup "director" = some (.str dir)) :
    getMoviesByDirector B movies d =
      .ok ⟨200, [], moviesBody (movies.filter (fun m =>
        match m.lookup "director" with
        | some (.str dir) =>
          decide (List.IsInfix (B.toLowerCase d).data (B.toLowerCase dir).data)
        | _ => false))⟩ ∧
    ((∀ m ∈ movies, ∀ dir, m.lookup "director" = some (.str dir) →
        ¬ List.IsInfix (B.toLowerCase d).data (B.toLowerCase dir).data) →
      getMoviesByDirector B movies d = .ok ⟨200, [], moviesBody []⟩) := by
  have hfilter := filterMovies_directorCallback B d movies hdir
  have hroute : getMoviesByDirector B movies d =
      .ok ⟨200, [], moviesBody (movies.filter (fun m =>
        match m.lookup "director" with
        | some (.str dir) =>
          decide (List.IsInfix (B.toLowerCase d).data (B.toLowerCase dir).data)
        | _ => false))⟩ := by
    simp only [getMoviesByDirector, hfilter, truthy, if_true]
  refine ⟨hroute, ?_⟩
  intro hnone
  rw [hroute]
  have hempty : movies.filter (fun m =>
        match m.lookup "director" with
        | some (.str dir) =>
          decide (List.IsInfix (B.toLowerCase d).data (B.toLowerCase dir).data)
        | _ => false) = [] := by
    rw [List.filter_eq_nil_iff]
    intro m hm
    obtain ⟨dir, hl⟩ := hdir m hm
    simp [hl, hnone m hm dir hl]
  rw [hempty]

theorem director_route_filters_witness :
    (∀ m ∈ [sampleMovie, otherMovie], ∃ dir, m.lookup "director" = some (.str dir)) ∧
    getMoviesByDirector asciiRuntime [sampleMovie, otherMovie] "e" =
      .ok ⟨200, [], moviesBody [otherMovie]⟩ ∧
    getMoviesByDirector asciiRuntime [sampleMovie, otherMovie] "zz" =
      .ok ⟨200, [], moviesBody []⟩ :=
  ⟨(fun m hm => by
      rcases List.mem_cons.1 hm with rfl | hm
      · exact ⟨"D", rfl⟩
      · rcases List.mem_cons.1 hm with rfl | hm
        · exact ⟨"E", rfl⟩
        · cases hm),
   ((director_route_filters asciiRuntime [sampleMovie, otherMovie] "e"
      (fun m hm => by
        rcases List.mem_cons.1 hm with rfl | hm
        · exact ⟨"D", rfl⟩
        · rcases List.mem_cons.1 hm with rfl | hm
          · exact ⟨"E", rfl⟩
          · cases hm)).1.trans rfl),
   rfl⟩

/-! ## What the mutating handlers do to the array -/

theorem patchMovie_store (B : Builtins) (movies : List Obj) (id : String) (body : Json) :
    (patchMovie B movies id body).2 = movies ∨
    ∃ pre old post data, movies = pre ++ old :: post ∧ (∀ m ∈ pre, hasId id m = false) ∧
      hasId id old = true ∧ validatePartialMovie B body = .ok data ∧
      (patchMovie B movies id body).2 = pre ++ spread old data :: post := by
  cases hvalid : validatePartialMovie B body with
  | error issues => left; simp only [patchMovie, hvalid]
  | ok data =>
    cases hidx : findIndex (hasId id) movies with
    | none => left; simp only [patchMovie, hvalid, hidx]
    | some i =>
      right
      obtain ⟨pre, old, post, rfl, rfl, hpre, hold⟩ := findIndex_eq_some _ _ _ hidx
      refine ⟨pre, old, post, data, rfl, hpre, hold, rfl, ?_⟩
      simp only [patchMovie, hvalid, hidx, getElem?_split, Option.getD_some, set_split]

theorem deleteMovie_store (movies : List Obj) (origin : Option String) (id : String) :
    (deleteMovie movies origin id).2 = movies ∨
    ∃ pre old post, movies = pre ++ old :: post ∧ (∀ m ∈ pre, hasId id m = false) ∧
      hasId id old = true ∧
      deleteMovie movies origin id =
        (⟨204, corsHeaders origin, .json (.obj [("meesage", .str "Movie deleted")])⟩,
          pre ++ post) := by
  cases hidx : findIndex (hasId id) movies with
  | none => left; simp only [deleteMovie, hidx]
  | some i =>
    right
    obtain ⟨pre, old, post, rfl, rfl, hpre, hold⟩ := findIndex_eq_some _ _ _ hidx
    refine ⟨pre, old, post, rfl, hpre, hold, ?_⟩
    simp only [deleteMovie, hidx, eraseIdx_split]

theorem postMovie_store (B : Builtins) (uuid : String) (movies : List Obj) (body : Json) :
    (postMovie B uuid movies body).2 = movies ∨
    ∃ data, validateMovie B body = .ok data ∧
      (postMovie B uuid movies body).2 = movies ++ [("id", .str uuid) :: data] := by
  cases hvalid : validateMovie B body with
  | error issues => left; simp only [postMovie, hvalid]
  | ok data =>
    right
    exact ⟨data, rfl, by simp only [postMovie, hvalid, newMovie_eq B uuid body data hvalid]⟩

theorem partialData_lookup (B : Builtins) (body : Json) (data : Obj)
    (hvalid : validatePartialMovie B body = .ok data) :
    ∃ o, body = .obj o ∧ (data.map Prod.fst).Nodup ∧
      ∀ k, data.lookup k = if k ∈ schemaKeys then o.lookup k else none := by
  obtain ⟨o, rfl, hdata⟩ := validatePartialMovie_data B body data hvalid
  refine ⟨o, rfl, (validatePartialMovie_keys B _ data hvalid).nodup schemaKeys_nodup, ?_⟩
  intro k
  rw [hdata]
  exact lookup_presentFields schemaKeys o k

theorem merged_id (B : Builtins) (body : Json) (data old : Obj)
    (hvalid : validatePartialMovie B body = .ok data) :
    (spread old data).lookup "id" = old.lookup "id" := by
  obtain ⟨o, -, hnodup, hlookup⟩ := partialData_lookup B body data hvalid
  have hnone : data.lookup "id" = none := by
    rw [hlookup "id"]
    exact if_neg (by decide)
  rw [lookup_spread data old hnodup "id", hnone]

theorem patchMovie_ids (B : Builtins) (movies : List Obj) (id : String) (body : Json) :
    (patchMovie B movies id body).2.map (fun m => m.lookup "id") =
      movies.map (fun m => m.lookup "id") := by
  rcases patchMovie_store B movies id body with h | ⟨pre, old, post, data, rfl, -, -, hvalid, h⟩
  · rw [h]
  · rw [h]
    simp only [List.map_append, List.map_cons, merged_id B body data old hvalid]

theorem hasId_of_lookup_eq (id : String) (m m' : Obj) (h : m'.lookup "id" = m.lookup "id") :
    hasId id m' = hasId id m := by
  simp only [hasId, h]

theorem movieId_of_lookup_eq (m m' : Obj) (h : m'.lookup "id" = m.lookup "id") :
    movieId m' = movieId m := by
  simp only [movieId, h]

/-- C12: `PATCH /movies/id` never changes an id.  The data of a valid body has no `id`
(the schema drops it), the `id` property of the record at every position is the same
before and after, for every body, so a record that carried `id` still carries it at its
position. -/
theorem patch_keeps_id (B : Builtins) (movies : List Obj) (id : String) (body : Json) :
    (∀ data, validatePartialMovie B body = .ok data → data.lookup "id" = none) ∧
    (patchMovie B movies id body).2.map (fun m => m.lookup "id") =
      movies.map (fun m => m.lookup "id") ∧
    (∀ (j : Nat) (m : Obj), movies[j]? = some m → hasId id m = true →
      ∃ m', (patchMovie B movies id body).2[j]? = some m' ∧ hasId id m' = true) := by
  refine ⟨?_, patchMovie_ids B movies id body, ?_⟩
  · intro data hvalid
    obtain ⟨o, -, -, hlookup⟩ := partialData_lookup B body data hvalid
    rw [hlookup "id"]
    exact if_neg (by decide)
  · intro j m hj hm
    have hids := congrArg (fun l => l[j]?) (patchMovie_ids B movies id body)
    simp only [List.getElem?_map, hj, Option.map_some'] at hids
    cases hres : (patchMovie B movies id body).2[j]? with
    | none => simp [hres] at hids
    | some m' =>
      simp only [hres, Option.map_some', Option.some.injEq] at hids
      exact ⟨m', rfl, by rw [hasId_of_lookup_eq id m m' hids, hm]⟩

theorem patch_keeps_id_witness :
    validatePartialMovie asciiRuntime
        (.obj [("id", .str "zzz"), ("rate", .num (.fin 9))]) = .ok [("rate", .num (.fin 9))] ∧
    [sampleMovie, otherMovie][1]? = some otherMovie ∧ hasId "b2" otherMovie = true ∧
    ∃ m', (patchMovie asciiRuntime [sampleMovie, otherMovie] "b2"
        (.obj [("id", .str "zzz"), ("rate", .num (.fin 9))])).2[1]? = some m' ∧
      hasId "b2" m' = true :=
  ⟨rfl, rfl, rfl,
   (patch_keeps_id asciiRuntime [sampleMovie, otherMovie] "b2"
      (.obj [("id", .str "zzz"), ("rate", .num (.fin 9))])).2.2 1 otherMovie rfl rfl⟩

theorem not_mem_ids_of_absent (id : String) (movies : List Obj)
    (habsent : ∀ m ∈ movies, hasId id m = false) : id ∉ movies.filterMap movieId := by
  intro hmem
  obtain ⟨m, hm, hid⟩ := List.mem_filterMap.1 hmem
  have := (hasId_iff_movieId id m).2 hid
  rw [habsent m hm] at this
  cases this

/-- C13: when no two records of the array share an id, the same holds after
`POST /movies` with a generated id that no record carries, after `PATCH /movies/:id` and
after `DELETE /movies/:id`, for every body and every path id. -/
theorem unique_ids_invariant (B : Builtins) (movies : List Obj) (huniq : UniqueIds movies) :
    (∀ (uuid : String) (body : Json), (∀ m ∈ movies, hasId uuid m = false) →
      UniqueIds (postMovie B uuid movies body).2) ∧
    (∀ (id : String) (body : Json), UniqueIds (patchMovie B movies id body).2) ∧
    (∀ (origin : Option String) (id : String), UniqueIds (deleteMovie movies origin id).2) := by
  refine ⟨?_, ?_, ?_⟩
  · intro uuid body hfresh
    rcases postMovie_store B uuid movies body with h | ⟨data, -, h⟩
    · rw [h]; exact huniq
    · rw [h]
      have hnew : movieId (("id", Json.str uuid) :: data) = some uuid := by
        simp [movieId]
      unfold UniqueIds at huniq ⊢
      rw [List.filterMap_append, List.filterMap_cons, hnew, List.filterMap_nil]
      refine List.nodup_append.2 ⟨huniq, List.nodup_singleton _, ?_⟩
      intro x hx hx'
      rw [List.mem_singleton] at hx'
      subst hx'
      exact not_mem_ids_of_absent x movies hfresh hx
  · intro id body
    rcases patchMovie_store B movies id body with h | ⟨pre, old, post, data, rfl, -, -, hvalid, h⟩
    · rw [h]; exact huniq
    · rw [h]
      unfold UniqueIds at huniq ⊢
      rw [List.filterMap_append, List.filterMap_cons] at huniq ⊢
      rw [movieId_of_lookup_eq old (spread old data) (merged_id B body data old hvalid)]
      exact huniq
  · intro origin id
    rcases deleteMovie_store movies origin id with h | ⟨pre, old, post, rfl, -, -, h⟩
    · rw [h]; exact huniq
    · rw [h]
      unfold UniqueIds at huniq ⊢
      refine List.Nodup.sublist (List.Sublist.filterMap movieId ?_) huniq
      exact List.Sublist.append_left (List.sublist_cons_self old post) pre

theorem unique_ids_invariant_witness :
    UniqueIds [sampleMovie, otherMovie] ∧
    (∀ m ∈ [sampleMovie, otherMovie], hasId "u7" m = false) ∧
    UniqueIds (postMovie asciiRuntime "u7" [sampleMovie, otherMovie] scenarioBody).2 ∧
    UniqueIds (patchMovie asciiRuntime [sampleMovie, otherMovie] "b2"
      (.obj [("id", .str "a1"), ("rate", .num (.fin 9))])).2 ∧
    UniqueIds (deleteMovie [sampleMovie, otherMovie] none "a1").2 :=
  ⟨by decide, by decide,
   (unique_ids_invariant asciiRuntime [sampleMovie, otherMovie] (by decide)).1 "u7"
      scenarioBody (by decide),
   (unique_ids_invariant asciiRuntime [sampleMovie, otherMovie] (by decide)).2.1 "b2" _,
   (unique_ids_invariant asciiRuntime [sampleMovie, otherMovie] (by decide)).2.2 none "a1"⟩

/-- C18: when a record of the array carries `id`, `DELETE /movies/id` leaves the array
with only the first such record removed: the records before it (none of which carries
`id`) and all the records after it, also those with the same id, stay in place and in
order, and the length drops by one. -/
theorem delete_removes_first (movies : List Obj) (origin : Option String) (id : String)
    (hmem : ∃ m ∈ movies, hasId id m = true) :
    ∃ pre old post, movies = pre ++ old :: post ∧ (∀ m ∈ pre, hasId id m = false) ∧
      hasId id old = true ∧ (deleteMovie movies origin id).2 = pre ++ post ∧
      (deleteMovie movies origin id).2.length + 1 = movies.length := by
  obtain ⟨i, hi⟩ := findIndex_of_mem (hasId id) movies hmem
  obtain ⟨pre, old, post, rfl, rfl, hpre, hold⟩ := findIndex_eq_some _ _ _ hi
  refine ⟨pre, old, post, rfl, hpre, hold, ?_, ?_⟩
  · simp only [deleteMovie, hi, eraseIdx_split]
  · simp only [deleteMovie, hi, eraseIdx_split, List.length_append, List.length_cons]
    omega

/-- An array with two records of id `a1`: only the first of them is removed. -/
theorem delete_removes_first_witness :
    (∃ m ∈ [otherMovie, sampleMovie, ("id", Json.str "a1") :: [("title", Json.str "Z")]],
      hasId "a1" m = true) ∧
    (deleteMovie [otherMovie, sampleMovie, ("id", Json.str "a1") :: [("title", Json.str "Z")]]
      none "a1").2 = [otherMovie, ("id", Json.str "a1") :: [("title", Json.str "Z")]] ∧
    ∃ pre old post,
      [otherMovie, sampleMovie, ("id", Json.str "a1") :: [("title", Json.str "Z")]]
        = pre ++ old :: post ∧
      (∀ m ∈ pre, hasId "a1" m = false) ∧ hasId "a1" old = true ∧
      (deleteMovie [otherMovie, sampleMovie, ("id", Json.str "a1") :: [("title", Json.str "Z")]]
        none "a1").2 = pre ++ post ∧
      (deleteMovie [otherMovie, sampleMovie, ("id", Json.str "a1") :: [("title", Json.str "Z")]]
        none "a1").2.length + 1 =
        [otherMovie, sampleMovie, ("id", Json.str "a1") :: [("title", Json.str "Z")]].length :=
  ⟨⟨sampleMovie, List.mem_cons_of_mem _ (List.mem_cons_self _ _), rfl⟩, rfl,
   delete_removes_first _ none "a1"
     ⟨sampleMovie, List.mem_cons_of_mem _ (List.mem_cons_self _ _), rfl⟩⟩

/-! ## The genre routes -/

theorem someGenre_strings (B : Builtins) (g : String) (gs : List String) :
    ∃ b, someGenre B g (gs.map Json.str) = .ok b := by
  induction gs with
  | nil => exact ⟨false, rfl⟩
  | cons x rest ih =>
    by_cases h : (B.toLowerCase x == B.toLowerCase g) = true
    · exact ⟨true, by simp only [List.map_cons, someGenre, h, if_true]⟩
    · obtain ⟨b, hb⟩ := ih
      exact ⟨b, by simp only [List.map_cons, someGenre, h, if_false, hb, Bool.false_eq_true]⟩

theorem filterMovies_genreCallback (B : Builtins) (g : String) (movies : List Obj)
    (hgenre : ∀ m ∈ movies, ∃ gs : List String, m.lookup "genre" = some (.arr (gs.map Json.str))) :
    filterMovies (genreCallback B g) movies = .ok movies := by
  induction movies with
  | nil => rfl
  | cons m rest ih =>
    obtain ⟨gs, hm⟩ := hgenre m (List.mem_cons_self _ _)
    obtain ⟨b, hb⟩ := someGenre_strings B g gs
    have hrest := ih (fun x hx => hgenre x (List.mem_cons_of_mem _ hx))
    simp only [filterMovies, genreCallback, hm, hb, hrest, truthy, if_true]

/-- C19: the genre filter is a no-op.  On an array whose records each carry a list of
genre strings, `GET /movies?genre=g` and `GET /movies/genre/g` answer 200 with every
record in the order of the array, whatever `g`: the same list as `GET /movies` without
a query; and the 404 branch of the genre routes is never taken. -/
theorem genre_filter_noop (B : Builtins) (movies : List Obj) (g : String)
    (origin : Option String)
    (hgenre : ∀ m ∈ movies, ∃ gs : List String, m.lookup "genre" = some (.arr (gs.map Json.str))) :
    getMovies B movies origin (some g) = .ok ⟨200, corsHeaders origin, moviesBody movies⟩ ∧
    getMoviesByGenre B movies g = .ok ⟨200, [], moviesBody movies⟩ ∧
    getMovies B movies origin (some g) = getMovies B movies origin none ∧
    (∀ (headers : List (String × String)) (filtered : List Obj),
      (genreAnswer headers filtered).status = 200) := by
  have hfilter := filterMovies_genreCallback B g movies hgenre
  have hquery : getMovies B movies origin (some g) =
      .ok ⟨200, corsHeaders origin, moviesBody movies⟩ := by
    simp only [getMovies, hfilter, genreAnswer, truthy, if_true]
    split <;> rfl
  refine ⟨hquery, ?_, ?_, ?_⟩
  · simp only [getMoviesByGenre, hfilter, genreAnswer, truthy, if_true]
  · rw [hquery]; rfl
  · intro headers filtered
    simp only [genreAnswer, truthy, if_true]

theorem genre_filter_noop_witness :
    (∀ m ∈ [sampleMovie, otherMovie],
      ∃ gs : List String, m.lookup "genre" = some (.arr (gs.map Json.str))) ∧
    getMovies asciiRuntime [sampleMovie, otherMovie] none (some "Comedy") =
      .ok ⟨200, corsHeaders none, moviesBody [sampleMovie, otherMovie]⟩ ∧
    getMoviesByGenre asciiRuntime [sampleMovie, otherMovie] "Comedy" =
      .ok ⟨200, [], moviesBody [sampleMovie, otherMovie]⟩ :=
  ⟨(fun m hm => by
      rcases List.mem_cons.1 hm with rfl | hm
      · exact ⟨["Action"], rfl⟩
      · rcases List.mem_cons.1 hm with rfl | hm
        · exact ⟨["Drama", "Crime"], rfl⟩
        · cases hm),
   (genre_filter_noop asciiRuntime [sampleMovie, otherMovie] "Comedy" none
      (fun m hm => by
        rcases List.mem_cons.1 hm with rfl | hm
        · exact ⟨["Action"], rfl⟩
        · rcases List.mem_cons.1 hm with rfl | hm
          · exact ⟨["Drama", "Crime"], rfl⟩
          · cases hm)).1,
   (genre_filter_noop asciiRuntime [sampleMovie, otherMovie] "Comedy" none
      (fun m hm => by
        rcases List.mem_cons.1 hm with rfl | hm
        · exact ⟨["Action"], rfl⟩
        · rcases List.mem_cons.1 hm with rfl | hm
          · exact ⟨["Drama", "Crime"], rfl⟩
          · cases hm)).2.1⟩

/-! ## The rules of the fields -/

theorem genreElements_of_no_issues (options : List String) (path : List PathSeg)
    (xs : List Json) (i : Nat)
    (h : (parseElements (zEnum options) path i xs).flatMap (fun r => r.issues) = []) :
    ∃ genres : List String, xs = genres.map Json.str ∧ ∀ g ∈ genres, g ∈ options := by
  induction xs generalizing i with
  | nil => exact ⟨[], rfl, by simp⟩
  | cons x rest ih =>
    simp only [parseElements, List.flatMap_cons, List.append_eq_nil] at h
    obtain ⟨genres, rfl, hall⟩ := ih (i + 1) h.2
    cases x with
    | str s =>
      by_cases hs : s ∈ options
      · refine ⟨s :: genres, rfl, ?_⟩
        intro g hg
        rcases List.mem_cons.1 hg with rfl | hg
        · exact hs
        · exact hall g hg
      · simp [zEnum, hs] at h
    | null => simp [zEnum] at h
    | bool b => simp [zEnum] at h
    | num n => simp [zEnum] at h
    | arr ys => simp [zEnum] at h
    | obj o => simp [zEnum] at h

theorem fieldRule_iff (B : Builtins) :
    ∀ ks ∈ movieSchema B, ∀ (p : List PathSeg) (v : Json),
      (ks.2 p (some v)).issues = [] ↔ fieldRule B ks.1 v := by
  intro ks hks p v
  simp only [movieSchema, List.mem_cons, List.mem_singleton, List.not_mem_nil, or_false] at hks
  rcases hks with rfl | rfl | rfl | rfl | rfl | rfl | rfl
  · cases v <;> simp [fieldRule, zString]
  · cases v with
    | num n => simpa [fieldRule] using yearChecks_no_issues_iff _ _ p n
    | null => simp [fieldRule, zNumber]
    | bool b => simp [fieldRule, zNumber]
    | str s => simp [fieldRule, zNumber]
    | arr xs => simp [fieldRule, zNumber]
    | obj o => simp [fieldRule, zNumber]
  · cases v <;> simp [fieldRule, zString]
  · cases v with
    | num n => simpa [fieldRule] using durationChecks_no_issues_iff _ _ p n
    | null => simp [fieldRule, zNumber]
    | bool b => simp [fieldRule, zNumber]
    | str s => simp [fieldRule, zNumber]
    | arr xs => simp [fieldRule, zNumber]
    | obj o => simp [fieldRule, zNumber]
  · cases v with
    | num n => simpa [fieldRule, zDefault] using rateChecks_no_issues_iff _ _ p n
    | null => simp [fieldRule, zNumber, zDefault]
    | bool b => simp [fieldRule, zNumber, zDefault]
    | str s => simp [fieldRule, zNumber, zDefault]
    | arr xs => simp [fieldRule, zNumber, zDefault]
    | obj o => simp [fieldRule, zNumber, zDefault]
  · cases v with
    | str s =>
      by_cases hu : B.isUrl s = true <;> by_cases hj : endsWith s ".jpg" = true <;>
        simp [fieldRule, zString, StringCheck.run, hu, hj]
    | null => simp [fieldRule, zString]
    | bool b => simp [fieldRule, zString]
    | num n => simp [fieldRule, zString]
    | arr xs => simp [fieldRule, zString]
    | obj o => simp [fieldRule, zString]
  · cases v with
    | arr xs =>
      simp only [fieldRule, zArray]
      constructor
      · intro h
        obtain ⟨genres, rfl, hall⟩ := genreElements_of_no_issues _ _ _ _ h
        simpa using ⟨genres, rfl, hall⟩
      · intro h
        have h' : ∃ genres : List String, xs = genres.map Json.str ∧
            ∀ g ∈ genres, g ∈ genreOptions := by simpa using h
        obtain ⟨genres, rfl, hall⟩ := h'
        exact genreElements_no_issues _ _ _ _ hall
    | null => simp [fieldRule, zArray]
    | bool b => simp [fieldRule, zArray]
    | num n => simp [fieldRule, zArray]
    | str s => simp [fieldRule, zArray]
    | obj o => simp [fieldRule, zArray]

theorem absentField_iff (B : Builtins) :
    ∀ ks ∈ movieSchema B, ∀ (p : List PathSeg), (ks.2 p none).issues = [] ↔ ks.1 = "rate" := by
  intro ks hks p
  simp only [movieSchema, List.mem_cons, List.mem_singleton, List.not_mem_nil, or_false] at hks
  rcases hks with rfl | rfl | rfl | rfl | rfl | rfl | rfl
  · simp [zString]
  · simp [zNumber]
  · simp [zString]
  · simp [zNumber]
  · simp only [zDefault, iff_true]
    exact (rateChecks_no_issues_iff none none p (JsNumber.ofInt 5)).2
      ⟨5, by simp [JsNumber.ofInt], by norm_num, by norm_num⟩
  · simp [zString]
  · simp [zArray]

theorem safeParse_ok_iff (shape : Shape) (o : Obj) :
    (∃ data, safeParse shape (.obj o) = .ok data) ↔
      ∀ ks ∈ shape, (ks.2 [.key ks.1] (o.lookup ks.1)).issues = [] := by
  constructor
  · rintro ⟨data, h⟩
    obtain ⟨o', ho, -, hissues⟩ := safeParse_ok shape _ data h
    cases ho
    exact hissues
  · intro h
    exact ⟨_, safeParse_of_no_issues shape o h⟩

theorem mem_schemaKeys_iff (B : Builtins) (k : String) :
    k ∈ schemaKeys ↔ ∃ ks ∈ movieSchema B, ks.1 = k := by
  rw [← movieSchema_keys B, List.mem_map]

/-- The full validation succeeds on an object exactly when every schema field that is
present satisfies its rule and no field other than `rate` is absent. -/
theorem validateMovie_ok_iff_rules (B : Builtins) (o : Obj) :
    (∃ data, validateMovie B (.obj o) = .ok data) ↔
      ∀ k ∈ schemaKeys, (∀ v, o.lookup k = some v → fieldRule B k v) ∧
        (o.lookup k = none → k = "rate") := by
  unfold validateMovie
  rw [safeParse_ok_iff]
  constructor
  · intro h k hk
    obtain ⟨ks, hks, rfl⟩ := (mem_schemaKeys_iff B k).1 hk
    have hissue := h ks hks
    constructor
    · intro v hv
      rw [hv] at hissue
      exact (fieldRule_iff B ks hks _ v).1 hissue
    · intro hnone
      rw [hnone] at hissue
      exact (absentField_iff B ks hks _).1 hissue
  · intro h ks hks
    have hk : ks.1 ∈ schemaKeys := (mem_schemaKeys_iff B ks.1).2 ⟨ks, hks, rfl⟩
    obtain ⟨hpresent, habsent⟩ := h ks.1 hk
    cases hl : o.lookup ks.1 with
    | none => exact (absentField_iff B ks hks _).2 (habsent hl)
    | some v => exact (fieldRule_iff B ks hks _ v).2 (hpresent v hl)

/-- The partial validation succeeds on an object exactly when every schema field that is
present satisfies its rule. -/
theorem validatePartialMovie_ok_iff_rules (B : Builtins) (o : Obj) :
    (∃ data, validatePartialMovie B (.obj o) = .ok data) ↔
      ∀ k ∈ schemaKeys, ∀ v, o.lookup k = some v → fieldRule B k v := by
  unfold validatePartialMovie
  rw [safeParse_ok_iff]
  constructor
  · intro h k hk v hv
    obtain ⟨ks, hks, rfl⟩ := (mem_schemaKeys_iff B k).1 hk
    have hissue := h (ks.1, zOptional ks.2)
      (by simp only [partialShape, List.mem_map]; exact ⟨ks, hks, rfl⟩)
    simp only [hv] at hissue
    exact (fieldRule_iff B ks hks _ v).1 hissue
  · intro h ks' hks'
    simp only [partialShape, List.mem_map] at hks'
    obtain ⟨ks, hks, rfl⟩ := hks'
    have hk : ks.1 ∈ schemaKeys := (mem_schemaKeys_iff B ks.1).2 ⟨ks, hks, rfl⟩
    cases hl : o.lookup ks.1 with
    | none => rfl
    | some v => exact (fieldRule_iff B ks hks _ v).2 (h ks.1 hk v hl)

/-- C14: on an object candidate `validatePartialMovie` succeeds exactly when every schema
field that is present satisfies its rule, the rule that `validateMovie` applies to that
field (`validateMovie` asks in addition that no field other than `rate` is absent); the
empty object succeeds, and only objects succeed; the data holds exactly the schema fields
that were present, with the values of the candidate, and no `rate` when the candidate
has none. -/
theorem partial_validation_presence (B : Builtins) (o : Obj) :
    ((∃ data, validatePartialMovie B (.obj o) = .ok data) ↔
      ∀ k ∈ schemaKeys, ∀ v, o.lookup k = some v → fieldRule B k v) ∧
    ((∃ data, validateMovie B (.obj o) = .ok data) ↔
      ∀ k ∈ schemaKeys, (∀ v, o.lookup k = some v → fieldRule B k v) ∧
        (o.lookup k = none → k = "rate")) ∧
    validatePartialMovie B (.obj []) = .ok [] ∧
    (∀ (c : Json) (data : Obj), validatePartialMovie B c = .ok data → ∃ fields, c = .obj fields) ∧
    (∀ data, validatePartialMovie B (.obj o) = .ok data →
      data = schemaKeys.filterMap (fun k => (o.lookup k).map (fun v => (k, v))) ∧
      (∀ k, data.lookup k = if k ∈ schemaKeys then o.lookup k else none) ∧
      (o.lookup "rate" = none → data.lookup "rate" = none)) := by
  refine ⟨validatePartialMovie_ok_iff_rules B o, validateMovie_ok_iff_rules B o, rfl, ?_, ?_⟩
  · intro c data hc
    obtain ⟨fields, hfields, -⟩ := validatePartialMovie_data B c data hc
    exact ⟨fields, hfields⟩
  intro data hvalid
  obtain ⟨o', ho, hdata⟩ := validatePartialMovie_data B _ data hvalid
  cases ho
  have hlookup : ∀ k, data.lookup k = if k ∈ schemaKeys then o.lookup k else none := by
    intro k
    rw [hdata]
    exact lookup_presentFields schemaKeys o k
  refine ⟨hdata, hlookup, ?_⟩
  intro hnone
  rw [hlookup "rate", hnone]
  simp

theorem partial_validation_presence_witness :
    (∃ data, validatePartialMovie asciiRuntime
        (.obj [("year", .num (.fin 2001)), ("extra", .bool true)]) = .ok data) ∧
    [(("year", Json.num (.fin 2001)) : String × Json)] =
      schemaKeys.filterMap (fun k =>
        (List.lookup k [("year", Json.num (.fin 2001)), ("extra", Json.bool true)]).map
          (fun v => (k, v))) ∧
    List.lookup "rate" [(("year", Json.num (.fin 2001)) : String × Json)] = none :=
  ⟨⟨_, rfl⟩,
   ((partial_validation_presence asciiRuntime
      [("year", .num (.fin 2001)), ("extra", .bool true)]).2.2.2.2
      [("year", .num (.fin 2001))] rfl).1,
   ((partial_validation_presence asciiRuntime
      [("year", .num (.fin 2001)), ("extra", .bool true)]).2.2.2.2
      [("year", .num (.fin 2001))] rfl).2.2 rfl⟩

theorem requiredField (B : Builtins) (o : Obj) (data : Obj)
    (h : validateMovie B (.obj o) = .ok data) (k : String) (hk : k ∈ schemaKeys)
    (hne : k ≠ "rate") : ∃ v, o.lookup k = some v ∧ fieldRule B k v := by
  obtain ⟨hpresent, habsent⟩ := (validateMovie_ok_iff_rules B o).1 ⟨data, h⟩ k hk
  cases hl : o.lookup k with
  | none => exact absurd (habsent hl) hne
  | some v => exact ⟨v, rfl, hpresent v hl⟩

/-- The fields of a candidate that passes the full validation, and the data returned. -/
theorem validateMovie_fields_of_ok (B : Builtins) (o : Obj) (data : Obj)
    (h : validateMovie B (.obj o) = .ok data) :
    ∃ (title director poster : String) (year duration : Int) (genres : List String)
      (rate : Rat),
      o.lookup "title" = some (.str title) ∧
      o.lookup "year" = some (.num (.fin year)) ∧ 1900 ≤ year ∧ year ≤ 2024 ∧
      o.lookup "director" = some (.str director) ∧
      o.lookup "duration" = some (.num (.fin duration)) ∧ 0 < duration ∧
      o.lookup "poster" = some (.str poster) ∧ B.isUrl poster = true ∧
      endsWith poster ".jpg" = true ∧
      o.lookup "genre" = some (.arr (genres.map Json.str)) ∧
      (∀ g ∈ genres, g ∈ genreOptions) ∧
      ((o.lookup "rate" = none ∧ rate = 5) ∨
        (o.lookup "rate" = some (.num (.fin rate)) ∧ 0 ≤ rate ∧ rate ≤ 10)) ∧
      data = [("title", .str title), ("year", .num (.fin year)), ("director", .str director),
              ("duration", .num (.fin duration)), ("rate", .num (.fin rate)),
              ("poster", .str poster), ("genre", .arr (genres.map Json.str))] := by
  obtain ⟨vt, ht, rt⟩ := requiredField B o data h "title" (by decide) (by decide)
  obtain ⟨vy, hy, ry⟩ := requiredField B o data h "year" (by decide) (by decide)
  obtain ⟨vd, hd, rd⟩ := requiredField B o data h "director" (by decide) (by decide)
  obtain ⟨vu, hu, ru⟩ := requiredField B o data h "duration" (by decide) (by decide)
  obtain ⟨vp, hp, rp⟩ := requiredField B o data h "poster" (by decide) (by decide)
  obtain ⟨vg, hg, rg⟩ := requiredField B o data h "genre" (by decide) (by decide)
  simp only [fieldRule, if_true] at rt
  simp [fieldRule] at ry rd ru rp rg
  obtain ⟨title, rfl⟩ := rt
  obtain ⟨year, rfl, hylo, hyhi⟩ := ry
  obtain ⟨director, rfl⟩ := rd
  obtain ⟨duration, rfl, hdpos⟩ := ru
  obtain ⟨poster, rfl, hurl, hjpg⟩ := rp
  obtain ⟨genres, rfl, hgenres⟩ := rg
  have hrate : ∃ rate : Rat, (o.lookup "rate" = none ∧ rate = 5) ∨
      (o.lookup "rate" = some (.num (.fin rate)) ∧ 0 ≤ rate ∧ rate ≤ 10) := by
    cases hl : o.lookup "rate" with
    | none => exact ⟨5, Or.inl ⟨rfl, rfl⟩⟩
    | some v =>
      have hr := ((validateMovie_ok_iff_rules B o).1 ⟨data, h⟩ "rate" (by decide)).1 v hl
      simp [fieldRule] at hr
      obtain ⟨rate, rfl, hlo, hhi⟩ := hr
      exact ⟨rate, Or.inr ⟨rfl, hlo, hhi⟩⟩
  obtain ⟨rate, hrate⟩ := hrate
  have hrate' : (o.lookup "rate" = none ∧ rate = 5) ∨
      (o.lookup "rate" = some (.num (.fin rate)) ∧ 0 ≤ rate ∧ rate ≤ 10) := hrate
  have hdata := validateMovie_of_fields B o title director poster year duration genres
    (o.lookup "rate") rate ht hy hylo hyhi hd hu hdpos hp hurl hjpg hg hgenres rfl hrate
  rw [h] at hdata
  exact ⟨title, director, poster, year, duration, genres, rate, ht, hy, hylo, hyhi, hd, hu,
    hdpos, hp, hurl, hjpg, hg, hgenres, hrate', Except.ok.inj hdata⟩

/-! ## Title and genre -/

/-- C15, as stated, fails: the candidate of the first scenario with the empty string as
title passes `validateMovie`, and `POST /movies` answers 201 with it. -/
theorem empty_title_accepted :
    emptyTitleFields.lookup "title" = some (.str "") ∧
    validateMovie asciiRuntime emptyTitleBody = .ok emptyTitleData ∧
    (postMovie asciiRuntime "u7" [sampleMovie] emptyTitleBody).1.status = 201 :=
  ⟨rfl, rfl, rfl⟩

/-- C15, amended: `validateMovie` rejects a title that is absent or not a string, whatever
the other fields, with an issue at the `title` field, and `POST /movies` then answers
400; the empty string is a string like any other: with it as title and the other fields
satisfying their rules the candidate is accepted, the data keeps the empty title and
`POST /movies` answers 201. -/
theorem title_must_be_string (B : Builtins) (o : Obj) :
    ((o.lookup "title" = none ∨ ∃ v, o.lookup "title" = some v ∧ ∀ s, v ≠ .str s) →
      ∃ issues, validateMovie B (.obj o) = .error issues ∧
        (∃ issue ∈ issues, issue.path = [.key "title"]) ∧
        ∀ (uuid : String) (movies : List Obj),
          postMovie B uuid movies (.obj o) = (⟨400, [], .error issues⟩, movies)) ∧
    (o.lookup "title" = some (.str "") →
      (∀ k ∈ schemaKeys, k ≠ "title" →
        (∀ v, o.lookup k = some v → fieldRule B k v) ∧ (o.lookup k = none → k = "rate")) →
      ∃ data, validateMovie B (.obj o) = .ok data ∧ data.lookup "title" = some (.str "") ∧
        ∀ (uuid : String) (movies : List Obj),
          (postMovie B uuid movies (.obj o)).1.status = 201) := by
  constructor
  · intro hbad
    have hissue : invalidType (some "Movie title is required")
        (some "Movie title must be a string") "string" (parsedType (o.lookup "title"))
        [.key "title"] (o.lookup "title") ∈
        (zString B (some "Movie title is required") (some "Movie title must be a string") []
          ([] ++ [.key "title"]) (o.lookup "title")).issues := by
      rcases hbad with hnone | ⟨v, hv, hns⟩
      · simp [hnone, zString]
      · rw [hv]
        cases v with
        | str s => exact absurd rfl (hns s)
        | null => simp [zString]
        | bool b => simp [zString]
        | num n => simp [zString]
        | arr xs => simp [zString]
        | obj kvs => simp [zString]
    obtain ⟨issues, herr, hmem⟩ := safeParse_error_of_issue (movieSchema B) o "title" _ _
      (by simp [movieSchema]) hissue
    have herr' : validateMovie B (.obj o) = .error issues := herr
    refine ⟨issues, herr', ⟨_, hmem, rfl⟩, ?_⟩
    intro uuid movies
    simp only [postMovie, herr']
  · intro htitle hothers
    have hok : ∃ data, validateMovie B (.obj o) = .ok data := by
      rw [validateMovie_ok_iff_rules]
      intro k hk
      by_cases hkt : k = "title"
      · subst hkt
        refine ⟨?_, ?_⟩
        · intro v hv
          rw [htitle] at hv
          cases hv
          simp [fieldRule]
        · intro hnone
          rw [htitle] at hnone
          cases hnone
      · exact hothers k hk hkt
    obtain ⟨data, hdata⟩ := hok
    refine ⟨data, hdata, ?_, ?_⟩
    · obtain ⟨title, director, poster, year, duration, genres, rate, ht, -, -, -, -, -, -, -,
        -, -, -, -, -, rfl⟩ := validateMovie_fields_of_ok B o data hdata
      rw [htitle] at ht
      cases ht
      simp
    · intro uuid movies
      simp only [postMovie, hdata]

theorem title_must_be_string_witness :
    (∃ issues, validateMovie asciiRuntime (.obj [("title", .num (.fin 7))]) = .error issues ∧
        (∃ issue ∈ issues, issue.path = [.key "title"]) ∧
        ∀ (uuid : String) (movies : List Obj),
          postMovie asciiRuntime uuid movies (.obj [("title", .num (.fin 7))]) =
            (⟨400, [], .error issues⟩, movies)) ∧
    (∃ issues, validateMovie asciiRuntime (.obj []) = .error issues ∧
        (∃ issue ∈ issues, issue.path = [.key "title"]) ∧
        ∀ (uuid : String) (movies : List Obj),
          postMovie asciiRuntime uuid movies (.obj []) = (⟨400, [], .error issues⟩, movies)) ∧
    (∃ data, validateMovie asciiRuntime emptyTitleBody = .ok data ∧
        data.lookup "title" = some (.str "") ∧
        ∀ (uuid : String) (movies : List Obj),
          (postMovie asciiRuntime uuid movies emptyTitleBody).1.status = 201) :=
  ⟨(title_must_be_string asciiRuntime [("title", .num (.fin 7))]).1
      (Or.inr ⟨.num (.fin 7), rfl, fun s h => by cases h⟩),
   (title_must_be_string asciiRuntime []).1 (Or.inl rfl),
   (title_must_be_string asciiRuntime emptyTitleFields).2 rfl
      (fun k hk _ =>
        (validateMovie_ok_iff_rules asciiRuntime emptyTitleFields).1 ⟨emptyTitleData, rfl⟩ k hk)⟩

/-- C16, as stated, fails: the candidate of the first scenario with the empty list as
genre passes `validateMovie`. -/
theorem empty_genre_accepted :
    emptyGenreFields.lookup "genre" = some (.arr []) ∧
    validateMovie asciiRuntime emptyGenreBody = .ok emptyGenreData ∧
    (postMovie asciiRuntime "u7" [sampleMovie] emptyGenreBody).1.status = 201 :=
  ⟨rfl, rfl, rfl⟩

/-- C16, amended: `validateMovie` succeeds on a candidate only if its genre is a list,
possibly empty, every element of which is one of the 19 enumerated genre names (compared
exactly); a candidate whose genre list has an element outside the enumeration is
rejected; the empty list is accepted when the other fields satisfy their rules. -/
theorem genre_must_be_enumerated (B : Builtins) (o : Obj) :
    (∀ data, validateMovie B (.obj o) = .ok data →
      ∃ genres : List String, o.lookup "genre" = some (.arr (genres.map Json.str)) ∧
        ∀ g ∈ genres, g ∈ genreOptions) ∧
    (∀ xs, o.lookup "genre" = some (.arr xs) →
      (∃ x ∈ xs, ∀ g ∈ genreOptions, x ≠ .str g) →
      ∃ issues, validateMovie B (.obj o) = .error issues) ∧
    (o.lookup "genre" = some (.arr []) →
      (∀ k ∈ schemaKeys, k ≠ "genre" →
        (∀ v, o.lookup k = some v → fieldRule B k v) ∧ (o.lookup k = none → k = "rate")) →
      ∃ data, validateMovie B (.obj o) = .ok data ∧ data.lookup "genre" = some (.arr [])) ∧
    genreOptions.length = 19 := by
  have hfirst : ∀ data, validateMovie B (.obj o) = .ok data →
      ∃ genres : List String, o.lookup "genre" = some (.arr (genres.map Json.str)) ∧
        ∀ g ∈ genres, g ∈ genreOptions := by
    intro data h
    obtain ⟨title, director, poster, year, duration, genres, rate, -, -, -, -, -, -, -, -,
      -, -, hg, hgenres, -, -⟩ := validateMovie_fields_of_ok B o data h
    exact ⟨genres, hg, hgenres⟩
  refine ⟨hfirst, ?_, ?_, rfl⟩
  · intro xs hxs ⟨x, hx, hout⟩
    cases hres : validateMovie B (.obj o) with
    | error issues => exact ⟨issues, rfl⟩
    | ok data =>
      exfalso
      obtain ⟨genres, hg, hgenres⟩ := hfirst data hres
      rw [hxs] at hg
      simp only [Option.some.injEq, Json.arr.injEq] at hg
      subst hg
      obtain ⟨g, hgmem, rfl⟩ := List.mem_map.1 hx
      exact hout g (hgenres g hgmem) rfl
  · intro hgenre hothers
    have hok : ∃ data, validateMovie B (.obj o) = .ok data := by
      rw [validateMovie_ok_iff_rules]
      intro k hk
      by_cases hkg : k = "genre"
      · subst hkg
        refine ⟨?_, ?_⟩
        · intro v hv
          rw [hgenre] at hv
          cases hv
          simp only [fieldRule]
          exact ⟨[], rfl, by simp⟩
        · intro hnone
          rw [hgenre] at hnone
          cases hnone
      · exact hothers k hk hkg
    obtain ⟨data, hdata⟩ := hok
    refine ⟨data, hdata, ?_⟩
    obtain ⟨title, director, poster, year, duration, genres, rate, -, -, -, -, -, -, -, -,
      -, -, hg, -, -, rfl⟩ := validateMovie_fields_of_ok B o data hdata
    rw [hgenre] at hg
    simp only [Option.some.injEq, Json.arr.injEq] at hg
    rw [← hg]
    rfl

theorem genre_must_be_enumerated_witness :
    (∃ genres : List String,
      List.lookup "genre"
          [("title", Json.str "X"), ("year", .num (.fin 2020)), ("director", .str "D"),
           ("duration", .num (.fin 90)), ("poster", .str "http://a.com/p.jpg"),
           ("genre", .arr [.str "Action"])] = some (.arr (genres.map Json.str)) ∧
        ∀ g ∈ genres, g ∈ genreOptions) ∧
    (∃ issues, validateMovie asciiRuntime
        (.obj [("genre", .arr [.str "Action", .str "action"])]) = .error issues) ∧
    (∃ data, validateMovie asciiRuntime emptyGenreBody = .ok data ∧
        data.lookup "genre" = some (.arr [])) :=
  ⟨(genre_must_be_enumerated asciiRuntime
      [("title", .str "X"), ("year", .num (.fin 2020)), ("director", .str "D"),
       ("duration", .num (.fin 90)), ("poster", .str "http://a.com/p.jpg"),
       ("genre", .arr [.str "Action"])]).1 scenarioData rfl,
   (genre_must_be_enumerated asciiRuntime [("genre", .arr [.str "Action", .str "action"])]).2.1
      [.str "Action", .str "action"] rfl
      ⟨.str "action", List.mem_cons_of_mem _ (List.mem_cons_self _ _), fun g hg h => by
        have hg' : g = "action" := (Json.str.inj h).symm
        subst hg'
        revert hg
        decide⟩,
   (genre_must_be_enumerated asciiRuntime emptyGenreFields).2.2.1 rfl
      (fun k hk _ =>
        (validateMovie_ok_iff_rules asciiRuntime emptyGenreFields).1 ⟨emptyGenreData, rfl⟩ k hk)⟩

/-! ## The origin test of the handlers -/

theorem originAccepted_iff (origin : Option String) :
    originAccepted origin = true ↔
      origin = none ∨ origin = some "" ∨ ∃ o ∈ ACCEPTED_ORIGINS, origin = some o := by
  cases origin with
  | none => simp [originAccepted]
  | some o =>
    simp only [originAccepted, Bool.or_eq_true, List.elem_eq_mem, decide_eq_true_eq,
      beq_iff_eq, Option.some.injEq, false_or, reduceCtorEq]
    constructor
    · rintro (h | h)
      · exact Or.inr ⟨o, h, rfl⟩
      · exact Or.inl h
    · rintro (h | ⟨o', h, rfl⟩)
      · exact Or.inr h
      · exact Or.inl h

theorem getMovies_headers (B : Builtins) (movies : List Obj) (origin : Option String)
    (genre : Option String) (r : Response) (hr : getMovies B movies origin genre = .ok r) :
    r.headers = corsHeaders origin := by
  cases genre with
  | none =>
    simp only [getMovies, Except.ok.injEq] at hr
    rw [← hr]
  | some g =>
    simp only [getMovies] at hr
    split at hr
    · split at hr
      · simp only [Except.ok.injEq] at hr
        rw [← hr]
        simp only [genreAnswer]
        split <;> rfl
      · cases hr
    · simp only [Except.ok.injEq] at hr
      rw [← hr]

theorem deleteMovie_headers (movies : List Obj) (origin : Option String) (id : String) :
    (deleteMovie movies origin id).1.headers = corsHeaders origin := by
  simp only [deleteMovie]
  split <;> rfl

/-- C17, as stated, fails: the empty string is not on the allow-list and is not an absent
origin, yet for a request whose origin header is the empty string the handlers of
`GET /movies` and `DELETE /movies/:id` set `Access-Control-Allow-Origin`. -/
theorem empty_origin_accepted :
    "" ∉ ACCEPTED_ORIGINS ∧
    getMovies asciiRuntime [sampleMovie] (some "") none =
      .ok ⟨200, [("Access-Control-Allow-Origin", "")], moviesBody [sampleMovie]⟩ ∧
    (deleteMovie [sampleMovie] (some "") "a1").1.headers =
      [("Access-Control-Allow-Origin", "")] :=
  ⟨by decide, rfl, rfl⟩

/-- C17, amended: the handlers of `GET /movies` and `DELETE /movies/:id` set
`Access-Control-Allow-Origin` exactly when the origin is one of the four allow-listed
strings, is absent or is the empty string, and when the request carries an origin the
value set is that origin; for every other origin these handlers set no header. -/
theorem cors_gate (B : Builtins) (movies : List Obj) (origin : Option String)
    (genre : Option String) (id : String) :
    ACCEPTED_ORIGINS.length = 4 ∧
    ((origin = none ∨ origin = some "" ∨ ∃ o ∈ ACCEPTED_ORIGINS, origin = some o) →
      ∃ value, (∀ o, origin = some o → value = o) ∧
        (∀ r, getMovies B movies origin genre = .ok r →
          r.headers = [("Access-Control-Allow-Origin", value)]) ∧
        (deleteMovie movies origin id).1.headers =
          [("Access-Control-Allow-Origin", value)]) ∧
    (¬ (origin = none ∨ origin = some "" ∨ ∃ o ∈ ACCEPTED_ORIGINS, origin = some o) →
      (∀ r, getMovies B movies origin genre = .ok r → r.headers = []) ∧
      (deleteMovie movies origin id).1.headers = []) := by
  refine ⟨rfl, ?_, ?_⟩
  · intro h
    have hacc := (originAccepted_iff origin).2 h
    have hcors : corsHeaders origin =
        [("Access-Control-Allow-Origin", origin.getD "undefined")] := by
      simp only [corsHeaders, hacc, if_true]
    refine ⟨origin.getD "undefined", ?_, ?_, ?_⟩
    · rintro o rfl
      rfl
    · intro r hr
      rw [getMovies_headers B movies origin genre r hr, hcors]
    · rw [deleteMovie_headers, hcors]
  · intro h
    have hacc : originAccepted origin = false := by
      cases hc : originAccepted origin with
      | false => rfl
      | true => exact absurd ((originAccepted_iff origin).1 hc) h
    have hcors : corsHeaders origin = [] := by
      simp [corsHeaders, hacc]
    refine ⟨?_, ?_⟩
    · intro r hr
      rw [getMovies_headers B movies origin genre r hr, hcors]
    · rw [deleteMovie_headers, hcors]

theorem cors_gate_witness :
    (∃ value, (∀ o, some "https://midu.dev" = some o → value = o) ∧
        (∀ r, getMovies asciiRuntime [sampleMovie] (some "https://midu.dev") none = .ok r →
          r.headers = [("Access-Control-Allow-Origin", value)]) ∧
        (deleteMovie [sampleMovie] (some "https://midu.dev") "a1").1.headers =
          [("Access-Control-Allow-Origin", value)]) ∧
    getMovies asciiRuntime [sampleMovie] (some "https://midu.dev") none =
      .ok ⟨200, [("Access-Control-Allow-Origin", "https://midu.dev")],
        moviesBody [sampleMovie]⟩ ∧
    (∃ value, (∀ o, (none : Option String) = some o → value = o) ∧
        (∀ r, getMovies asciiRuntime [sampleMovie] none none = .ok r →
          r.headers = [("Access-Control-Allow-Origin", value)]) ∧
        (deleteMovie [sampleMovie] none "a1").1.headers =
          [("Access-Control-Allow-Origin", value)]) ∧
    ((∀ r, getMovies asciiRuntime [sampleMovie] (some "https://evil.example") none = .ok r →
          r.headers = []) ∧
      (deleteMovie [sampleMovie] (some "https://evil.example") "a1").1.headers = []) ∧
    getMovies asciiRuntime [sampleMovie] (some "https://evil.example") none =
      .ok ⟨200, [], moviesBody [sampleMovie]⟩ :=
  ⟨(cors_gate asciiRuntime [sampleMovie] (some "https://midu.dev") none "a1").2.1
      (Or.inr (Or.inr ⟨"https://midu.dev", by decide, rfl⟩)),
   rfl,
   (cors_gate asciiRuntime [sampleMovie] none none "a1").2.1 (Or.inl rfl),
   (cors_gate asciiRuntime [sampleMovie] (some "https://evil.example") none "a1").2.2
      (by
        rintro (h | h | ⟨o, ho, h⟩)
        · cases h
        · exact absurd (Option.some.inj h) (by decide)
        · have ho' : o = "https://evil.example" := (Option.some.inj h).symm
          subst ho'
          revert ho
          decide),
   rfl⟩

/-! ## Validity of the stored records -/

theorem newMovie_valid (B : Builtins) (uuid : String) (body : Json) (data : Obj)
    (hvalid : validateMovie B body = .ok data) :
    ∃ d, validateMovie B (.obj (("id", .str uuid) :: data)) = .ok d := by
  obtain ⟨o, rfl, -, -⟩ := safeParse_ok _ _ _ hvalid
  obtain ⟨title, director, poster, year, duration, genres, rate, -, -, hylo, hyhi, -, -,
    hdpos, -, hurl, hjpg, -, hgenres, hrate, rfl⟩ := validateMovie_fields_of_ok B o data hvalid
  have hrange : 0 ≤ rate ∧ rate ≤ 10 := by
    rcases hrate with ⟨-, rfl⟩ | ⟨-, hlo, hhi⟩
    · constructor <;> norm_num
    · exact ⟨hlo, hhi⟩
  exact ⟨_, validateMovie_of_fields B _ title director poster year duration genres
    (some (.num (.fin rate))) rate rfl rfl hylo hyhi rfl rfl hdpos rfl hurl hjpg rfl hgenres
    rfl (Or.inr ⟨rfl, hrange.1, hrange.2⟩)⟩

theorem merged_valid (B : Builtins) (old : Obj) (body : Json) (data : Obj)
    (hold : ∃ d, validateMovie B (.obj old) = .ok d)
    (hvalid : validatePartialMovie B body = .ok data) :
    ∃ d, validateMovie B (.obj (spread old data)) = .ok d := by
  obtain ⟨o, rfl, hnodup, hlookup⟩ := partialData_lookup B body data hvalid
  have hbody := (validatePartialMovie_ok_iff_rules B o).1 ⟨data, hvalid⟩
  have hstored := (validateMovie_ok_iff_rules B old).1 hold
  rw [validateMovie_ok_iff_rules]
  intro k hk
  have hmerged : (spread old data).lookup k =
      match o.lookup k with
      | some v => some v
      | none => old.lookup k := by
    rw [lookup_spread data old hnodup k, hlookup k, if_pos hk]
  cases hl : o.lookup k with
  | none =>
    rw [hl] at hmerged
    simp only at hmerged
    rw [hmerged]
    exact hstored k hk
  | some w =>
    rw [hl] at hmerged
    simp only at hmerged
    rw [hmerged]
    refine ⟨?_, ?_⟩
    · intro v hv
      cases hv
      exact hbody k hk w hl
    · intro hnone
      cases hnone

/-- C20: when every record of the array passes `validateMovie`, every record of the array
after `POST /movies`, `PATCH /movies/:id` or `DELETE /movies/:id` passes it too, for
every body and every path id; in particular the record merged from a valid record and
the data of a body that passed the partial validation passes the full validation. -/
theorem schema_validity_invariant (B : Builtins) (movies : List Obj)
    (hvalid : ∀ m ∈ movies, ∃ d, validateMovie B (.obj m) = .ok d) :
    (∀ (uuid : String) (body : Json), ∀ m ∈ (postMovie B uuid movies body).2,
      ∃ d, validateMovie B (.obj m) = .ok d) ∧
    (∀ (id : String) (body : Json), ∀ m ∈ (patchMovie B movies id body).2,
      ∃ d, validateMovie B (.obj m) = .ok d) ∧
    (∀ (origin : Option String) (id : String), ∀ m ∈ (deleteMovie movies origin id).2,
      ∃ d, validateMovie B (.obj m) = .ok d) ∧
    (∀ (old : Obj) (body : Json) (data : Obj), (∃ d, validateMovie B (.obj old) = .ok d) →
      validatePartialMovie B body = .ok data →
      ∃ d, validateMovie B (.obj (spread old data)) = .ok d) := by
  refine ⟨?_, ?_, ?_, fun old body data hold hdata => merged_valid B old body data hold hdata⟩
  · intro uuid body m hm
    rcases postMovie_store B uuid movies body with h | ⟨data, hdata, h⟩
    · rw [h] at hm
      exact hvalid m hm
    · rw [h] at hm
      rcases List.mem_append.1 hm with hm | hm
      · exact hvalid m hm
      · rw [List.mem_singleton] at hm
        subst hm
        exact newMovie_valid B uuid body data hdata
  · intro id body m hm
    rcases patchMovie_store B movies id body with h | ⟨pre, old, post, data, rfl, -, -, hdata, h⟩
    · rw [h] at hm
      exact hvalid m hm
    · rw [h] at hm
      rcases List.mem_append.1 hm with hm | hm
      · exact hvalid m (List.mem_append_left _ hm)
      · rcases List.mem_cons.1 hm with rfl | hm
        · exact merged_valid B old body data
            (hvalid old (List.mem_append_right _ (List.mem_cons_self _ _))) hdata
        · exact hvalid m (List.mem_append_right _ (List.mem_cons_of_mem _ hm))
  · intro origin id m hm
    rcases deleteMovie_store movies origin id with h | ⟨pre, old, post, rfl, -, -, h⟩
    · rw [h] at hm
      exact hvalid m hm
    · rw [h] at hm
      rcases List.mem_append.1 hm with hm | hm
      · exact hvalid m (List.mem_append_left _ hm)
      · exact hvalid m (List.mem_append_right _ (List.mem_cons_of_mem _ hm))

theorem schema_validity_invariant_witness :
    (∀ m ∈ [sampleMovie], ∃ d, validateMovie asciiRuntime (.obj m) = .ok d) ∧
    (∀ m ∈ (postMovie asciiRuntime "u7" [sampleMovie] scenarioBody).2,
      ∃ d, validateMovie asciiRuntime (.obj m) = .ok d) ∧
    (∀ m ∈ (patchMovie asciiRuntime [sampleMovie] "a1" (.obj [("rate", .num (.fin 9))])).2,
      ∃ d, validateMovie asciiRuntime (.obj m) = .ok d) ∧
    (∀ m ∈ (deleteMovie [sampleMovie] none "zz").2,
      ∃ d, validateMovie asciiRuntime (.obj m) = .ok d) ∧
    (∃ d, validateMovie asciiRuntime
      (.obj (spread sampleMovie [("rate", .num (.fin 9))])) = .ok d) :=
  ⟨(fun m hm => by
      rcases List.mem_cons.1 hm with rfl | hm
      · exact ⟨scenarioData, rfl⟩
      · cases hm),
   (schema_validity_invariant asciiRuntime [sampleMovie] (fun m hm => by
      rcases List.mem_cons.1 hm with rfl | hm
      · exact ⟨scenarioData, rfl⟩
      · cases hm)).1 "u7" scenarioBody,
   (schema_validity_invariant asciiRuntime [sampleMovie] (fun m hm => by
      rcases List.mem_cons.1 hm with rfl | hm
      · exact ⟨scenarioData, rfl⟩
      · cases hm)).2.1 "a1" (.obj [("rate", .num (.fin 9))]),
   (schema_validity_invariant asciiRuntime [sampleMovie] (fun m hm => by
      rcases List.mem_cons.1 hm with rfl | hm
      · exact ⟨scenarioData, rfl⟩
      · cases hm)).2.2.1 none "zz",
   (schema_validity_invariant asciiRuntime [sampleMovie] (fun m hm => by
      rcases List.mem_cons.1 hm with rfl | hm
      · exact ⟨scenarioData, rfl⟩
      · cases hm)).2.2.2 sampleMovie (.obj [("rate", .num (.fin 9))])
      [("rate", .num (.fin 9))] ⟨scenarioData, rfl⟩ rfl⟩

end RestApiDeploy
